import Mathlib

/-!
# FutabaVFD162S: a shallow embedding of the display driver

The driver in `src/FutabaVFD162S.cpp` bit-bangs a write-only serial protocol
on a clock and a data pin (plus an optional reset pin).  Every public method
is a short sequence of GPIO primitives and calls of the one byte primitive
`writeCharacterDirect`.

The embedding keeps two levels apart:

* `Event`  : what reaches the GPIO and timing collaborators
  (`digitalWrite`, `pinMode`, `timingDelay`);
* `Step`   : what a method body executes, in program order: a GPIO event or a
  call `writeCharacterDirect(b)`, recorded with the byte `b` that the
  `uint8_t` parameter receives.  `wire` expands the calls into pin events;
* `Command` : the operations as data, so that statements can range over
  every operation (`run`) and every sequence of operations (`runAll`).

Machine integers are natural numbers or integers with the reductions
`% 256` (conversion to `uint8_t`) and `% 65536` (conversion to `uint16_t`)
written out where the C++ code converts.
-/

set_option linter.dupNamespace false

namespace FutabaVFD162S

/-- Logic level of a pin, the second argument of `digitalWrite`. -/
inductive Level where
  | LOW
  | HIGH
  deriving DecidableEq, Repr

/-- Calls that reach the GPIO and timing collaborators.  `pinMode` is only ever
called with mode `OUTPUT`, so the mode is not recorded.  A duration is kept as
an integer: the type of the timing constants is not visible in the sources, so
`HALF_PERIOD_TIME - DATA_SETUP_TIME` is recorded as the plain difference. -/
inductive Event where
  | digitalWrite (pin : Nat) (level : Level)
  | pinMode (pin : Nat)
  | timingDelay (duration : Int)
  deriving DecidableEq, Repr

/-- What a method body executes, in order: a GPIO or timing call, or a call of
the byte primitive `writeCharacterDirect` with the byte it receives. -/
inductive Step where
  | gpio (e : Event)
  | writeCharacterDirect (character : Nat)
  deriving DecidableEq, Repr

/-- Modelled from the spec: the constants of `FutabaVFD162S.h`, a header that
is not among the sources.  The code only names them, so they are parameters of
the embedding: the command opcodes, the sentinel for an unused reset pin, the
custom character geometry and the timing constants. -/
structure Constants where
  DO_NOT_USE_PIN : Nat
  NUM_CUSTOM_CHARACTERS : Nat
  CUSTOM_CHARACTER_TRANSLATE_OFFSET : Nat
  CHARACTER_PIXEL_HEIGHT : Nat
  SET_INPUT_OUTPUT_MODE_CHARACTER : Nat
  CLEAR_ENTIRE_DISPLAY_CHARACTER : Nat
  LOAD_USER_CHARACTER_CHARACTER : Nat
  SET_CURSOR_POSITION_CHARACTER : Nat
  SET_DISPLAY_BRIGHTNESS_CHARACTER : Nat
  SET_CURSOR_MODE_CHARACTER : Nat
  SET_FLASH_POSITION_CHARACTER : Nat
  FLASH_MODE_CHARACTER : Nat
  SET_FLASH_RATE_CHARACTER : Nat
  SELECT_FONT_CHARACTER : Nat
  SET_BUFFERED_MODE_CHARACTER : Nat
  PRINT_MESSAGE_BUFFER_CHARACTER : Nat
  DATA_SETUP_TIME : Int
  HALF_PERIOD_TIME : Int
  PROCESS_TIME : Int
  RESET_HOLD_TIME : Int
  POST_RESET_DELAY_TIME : Int
  deriving Repr

/-- Modelled from the spec: the member variables of the class, declared in the
absent header.  The widths follow the data model of the specification: the
pins, `_numDisplayColumns` and `_numDisplayRows` are `uint8_t`,
`_numDisplayCharacters` is `uint16_t`. -/
structure Handle where
  _clockPin : Nat
  _dataPin : Nat
  _resetPin : Nat
  _numDisplayColumns : Nat
  _numDisplayRows : Nat
  _numDisplayCharacters : Nat
  deriving DecidableEq, Repr

/-- A concrete set of constants for evaluating the model on examples.  The
values are placeholders (eight custom characters of eight rows, distinct
opcodes); no theorem about arbitrary constants depends on them. -/
def sampleConstants : Constants where
  DO_NOT_USE_PIN := 255
  NUM_CUSTOM_CHARACTERS := 8
  CUSTOM_CHARACTER_TRANSLATE_OFFSET := 0xF6
  CHARACTER_PIXEL_HEIGHT := 8
  SET_INPUT_OUTPUT_MODE_CHARACTER := 0x01
  CLEAR_ENTIRE_DISPLAY_CHARACTER := 0x02
  LOAD_USER_CHARACTER_CHARACTER := 0x03
  SET_CURSOR_POSITION_CHARACTER := 0x04
  SET_DISPLAY_BRIGHTNESS_CHARACTER := 0x05
  SET_CURSOR_MODE_CHARACTER := 0x06
  SET_FLASH_POSITION_CHARACTER := 0x07
  FLASH_MODE_CHARACTER := 0x08
  SET_FLASH_RATE_CHARACTER := 0x09
  SELECT_FONT_CHARACTER := 0x0A
  SET_BUFFERED_MODE_CHARACTER := 0x0B
  PRINT_MESSAGE_BUFFER_CHARACTER := 0x0C
  DATA_SETUP_TIME := 1
  HALF_PERIOD_TIME := 5
  PROCESS_TIME := 50
  RESET_HOLD_TIME := 2000
  POST_RESET_DELAY_TIME := 2000

/-- The bit loop of `writeCharacterDirect`:
`for (uint8_t mask = 0b10000000; mask; mask >>= 1) { ... }`, entered with the
current value of `mask`. -/
def writeCharacterDirectLoop (K : Constants) (self : Handle) (character : Nat)
    (mask : Nat) : List Event :=
  if _h : mask = 0 then []
  else
    [ Event.digitalWrite self._dataPin
        (if character &&& mask != 0 then Level.HIGH else Level.LOW),
      Event.timingDelay K.DATA_SETUP_TIME,
      Event.digitalWrite self._clockPin Level.LOW,
      Event.timingDelay K.HALF_PERIOD_TIME,
      Event.digitalWrite self._clockPin Level.HIGH,
      Event.timingDelay (K.HALF_PERIOD_TIME - K.DATA_SETUP_TIME) ]
    ++ writeCharacterDirectLoop K self character (mask >>> 1)
termination_by mask
decreasing_by
  simp only [Nat.shiftRight_eq_div_pow, pow_one]
  omega

/-- Method `FutabaVFD162S::writeCharacterDirect`: the eight bit cells, most
significant bit first, then the processing delay. -/
def writeCharacterDirect (K : Constants) (self : Handle) (character : Nat) :
    List Event :=
  writeCharacterDirectLoop K self character 0b10000000
    ++ [Event.timingDelay K.PROCESS_TIME]

/-- Pin level expansion of a step: a byte call becomes the events of
`writeCharacterDirect`. -/
def wireStep (K : Constants) (self : Handle) : Step → List Event
  | Step.gpio e => [e]
  | Step.writeCharacterDirect character => writeCharacterDirect K self character

/-- Pin level trace of a sequence of steps. -/
def wire (K : Constants) (self : Handle) (steps : List Step) : List Event :=
  steps.flatMap (wireStep K self)

/-- The bytes handed to `writeCharacterDirect`, in order: the bytes a method
transmits. -/
def bytesSent : List Step → List Nat
  | [] => []
  | Step.gpio _ :: rest => bytesSent rest
  | Step.writeCharacterDirect character :: rest => character :: bytesSent rest

/-- The constructor `FutabaVFD162S::FutabaVFD162S(clockPin, dataPin, resetPin)`:
the new handle and the GPIO calls it makes. -/
def FutabaVFD162S (K : Constants) (clockPin dataPin resetPin : Nat) :
    Handle × List Step :=
  let self : Handle :=
    { _clockPin := clockPin
      _dataPin := dataPin
      _resetPin := resetPin
      _numDisplayColumns := 1
      _numDisplayRows := 1
      _numDisplayCharacters := (1 * 1) % 65536 }
  (self,
    [ Step.gpio (Event.digitalWrite clockPin Level.HIGH),
      Step.gpio (Event.pinMode clockPin),
      Step.gpio (Event.digitalWrite dataPin Level.LOW),
      Step.gpio (Event.pinMode dataPin) ]
    ++ (if resetPin != K.DO_NOT_USE_PIN then
          [ Step.gpio (Event.digitalWrite resetPin Level.LOW),
            Step.gpio (Event.pinMode resetPin) ]
        else []))

/-- Method `FutabaVFD162S::clear`. -/
def clear (K : Constants) (self : Handle) : Handle × List Step :=
  (self, [Step.writeCharacterDirect K.CLEAR_ENTIRE_DISPLAY_CHARACTER])

/-- Method `FutabaVFD162S::begin(uint8_t numColumns, int numRows)`.  `numColumns` is
the byte the caller passes; `numRows` is an `int`.  Storing `numRows` in the
8-bit row field reduces it modulo 256; the product `numColumns * numRows` is
formed in `int` and stored in the 16-bit cell count, which keeps it modulo
65536 (for a 16-bit and for a 32-bit `int` alike, overflow wrapping). -/
def begin (K : Constants) (self : Handle) (numColumns : Nat) (numRows : Int) :
    Handle × List Step :=
  let self : Handle :=
    { self with
      _numDisplayColumns := numColumns
      _numDisplayRows := (numRows % 256).toNat
      _numDisplayCharacters := (((numColumns : Int) * numRows) % 65536).toNat }
  let reset : List Step :=
    if self._resetPin != K.DO_NOT_USE_PIN then
      [ Step.gpio (Event.digitalWrite self._resetPin Level.HIGH),
        Step.gpio (Event.timingDelay K.RESET_HOLD_TIME),
        Step.gpio (Event.digitalWrite self._resetPin Level.LOW) ]
    else []
  let settle : List Step := [Step.gpio (Event.timingDelay K.POST_RESET_DELAY_TIME)]
  let mode : List Step :=
    [ Step.writeCharacterDirect K.SET_INPUT_OUTPUT_MODE_CHARACTER,
      Step.writeCharacterDirect 0 ]
  if self._resetPin == K.DO_NOT_USE_PIN then
    let r := clear K self
    (r.1, reset ++ settle ++ mode ++ r.2)
  else
    (self, reset ++ settle ++ mode)

/-- Method `FutabaVFD162S::setCursor(uint8_t column, uint8_t row)`.  The address is a
`uint8_t`: the `int` value `row * _numDisplayColumns + column` is reduced
modulo 256 when it is stored, before the range check; `address + 1` is reduced
again when it is passed to the `uint8_t` parameter of `writeCharacterDirect`. -/
def setCursor (K : Constants) (self : Handle) (column row : Nat) :
    Handle × List Step :=
  let address := (row * self._numDisplayColumns + column) % 256
  let address := if address >= self._numDisplayCharacters then 0 else address
  (self,
    [ Step.writeCharacterDirect K.SET_CURSOR_POSITION_CHARACTER,
      Step.writeCharacterDirect ((address + 1) % 256) ])

/-- Method `FutabaVFD162S::home`. -/
def home (K : Constants) (self : Handle) : Handle × List Step :=
  setCursor K self 0 0

/-- The inner loop of `createChar`:
`for (uint8_t i = 0; i < CHARACTER_PIXEL_HEIGHT; i++)`, entered with the
current `i` and `currentByte`.  `pixels[i]` is read with default 0 beyond the
end of the list (the C++ code reads whatever follows the array there). -/
def createCharInner (K : Constants) (pixels : List Nat) (testBit : Nat)
    (i : Nat) (currentByte : Nat) : Nat :=
  if h : i < K.CHARACTER_PIXEL_HEIGHT then
    let currentByte := currentByte >>> 1
    let currentByte :=
      if pixels.getD i 0 &&& testBit != 0 then currentByte ||| 0b10000000
      else currentByte
    createCharInner K pixels testBit (i + 1) currentByte
  else currentByte
termination_by K.CHARACTER_PIXEL_HEIGHT - i

/-- The outer loop of `createChar`:
`for (uint8_t testBit = 0b10000; testBit; testBit >>= 1)`, entered with the
current `testBit`; the bytes handed to `writeCharacterDirect`, in order. -/
def createCharColumns (K : Constants) (pixels : List Nat) (testBit : Nat) :
    List Nat :=
  if _h : testBit = 0 then []
  else
    createCharInner K pixels testBit 0 0b10000000
      :: createCharColumns K pixels (testBit >>> 1)
termination_by testBit
decreasing_by
  simp only [Nat.shiftRight_eq_div_pow, pow_one]
  omega

/-- Method `FutabaVFD162S::createChar(uint8_t characterIndex, uint8_t pixels[])`.
`characterIndex &= NUM_CUSTOM_CHARACTERS-1` masks with the low eight bits of
`NUM_CUSTOM_CHARACTERS - 1`, written `(NUM_CUSTOM_CHARACTERS + 255) % 256` so
that the value is the C++ one for every constant (it is
`NUM_CUSTOM_CHARACTERS - 1` for a constant in 1..256). -/
def createChar (K : Constants) (self : Handle) (characterIndex : Nat)
    (pixels : List Nat) : Handle × List Step :=
  let characterIndex := characterIndex &&& ((K.NUM_CUSTOM_CHARACTERS + 255) % 256)
  (self,
    [ Step.writeCharacterDirect K.LOAD_USER_CHARACTER_CHARACTER,
      Step.writeCharacterDirect ((characterIndex + 1) % 256) ]
    ++ (createCharColumns K pixels 0b10000).map Step.writeCharacterDirect)

/-- Method `FutabaVFD162S::write(uint8_t character)`: the handle, the steps executed
and the returned `size_t`.  `character += CUSTOM_CHARACTER_TRANSLATE_OFFSET`
is 8-bit arithmetic. -/
def write (K : Constants) (self : Handle) (character : Nat) :
    Handle × List Step × Nat :=
  if character < K.NUM_CUSTOM_CHARACTERS then
    let character := (character + K.CUSTOM_CHARACTER_TRANSLATE_OFFSET) % 256
    (self, [Step.writeCharacterDirect character], 1)
  else if character < 0x20 then
    (self, [], 0)
  else
    (self, [Step.writeCharacterDirect character], 1)

/-- Method `FutabaVFD162S::setBrightness`. -/
def setBrightness (K : Constants) (self : Handle) (level : Nat) :
    Handle × List Step :=
  (self,
    [ Step.writeCharacterDirect K.SET_DISPLAY_BRIGHTNESS_CHARACTER,
      Step.writeCharacterDirect level ])

/-- Method `FutabaVFD162S::setCursorModeAutoInc`. -/
def setCursorModeAutoInc (K : Constants) (self : Handle) : Handle × List Step :=
  (self,
    [ Step.writeCharacterDirect K.SET_CURSOR_MODE_CHARACTER,
      Step.writeCharacterDirect 0x01 ])

/-- Method `FutabaVFD162S::setCursorModeAutoDec`. -/
def setCursorModeAutoDec (K : Constants) (self : Handle) : Handle × List Step :=
  (self,
    [ Step.writeCharacterDirect K.SET_CURSOR_MODE_CHARACTER,
      Step.writeCharacterDirect 0x02 ])

/-- Method `FutabaVFD162S::setCursorModeNonInc`. -/
def setCursorModeNonInc (K : Constants) (self : Handle) : Handle × List Step :=
  (self,
    [ Step.writeCharacterDirect K.SET_CURSOR_MODE_CHARACTER,
      Step.writeCharacterDirect 0x03 ])

/-- Method `FutabaVFD162S::setFlashPositions`. -/
def setFlashPositions (K : Constants) (self : Handle) (start stop : Nat) :
    Handle × List Step :=
  (self,
    [ Step.writeCharacterDirect K.SET_FLASH_POSITION_CHARACTER,
      Step.writeCharacterDirect start,
      Step.writeCharacterDirect stop ])

/-- Method `FutabaVFD162S::setFlashModeEnabled`. -/
def setFlashModeEnabled (K : Constants) (self : Handle) : Handle × List Step :=
  (self,
    [ Step.writeCharacterDirect K.FLASH_MODE_CHARACTER,
      Step.writeCharacterDirect 0x02 ])

/-- Method `FutabaVFD162S::setFlashModeDisabled`. -/
def setFlashModeDisabled (K : Constants) (self : Handle) : Handle × List Step :=
  (self,
    [ Step.writeCharacterDirect K.FLASH_MODE_CHARACTER,
      Step.writeCharacterDirect 0x01 ])

/-- Method `FutabaVFD162S::setFlashRate50`. -/
def setFlashRate50 (K : Constants) (self : Handle) : Handle × List Step :=
  (self,
    [ Step.writeCharacterDirect K.SET_FLASH_RATE_CHARACTER,
      Step.writeCharacterDirect 0x01 ])

/-- Method `FutabaVFD162S::setFlashRate1`. -/
def setFlashRate1 (K : Constants) (self : Handle) : Handle × List Step :=
  (self,
    [ Step.writeCharacterDirect K.SET_FLASH_RATE_CHARACTER,
      Step.writeCharacterDirect 0x30 ])

/-- Method `FutabaVFD162S::setFlashRateTenth`. -/
def setFlashRateTenth (K : Constants) (self : Handle) : Handle × List Step :=
  (self,
    [ Step.writeCharacterDirect K.SET_FLASH_RATE_CHARACTER,
      Step.writeCharacterDirect 0xff ])

/-- Method `FutabaVFD162S::setFontWestern`. -/
def setFontWestern (K : Constants) (self : Handle) : Handle × List Step :=
  (self,
    [ Step.writeCharacterDirect K.SELECT_FONT_CHARACTER,
      Step.writeCharacterDirect 0x01 ])

/-- Method `FutabaVFD162S::setFontKatakana`. -/
def setFontKatakana (K : Constants) (self : Handle) : Handle × List Step :=
  (self,
    [ Step.writeCharacterDirect K.SELECT_FONT_CHARACTER,
      Step.writeCharacterDirect 0x02 ])

/-- Method `FutabaVFD162S::setNonBufferedMode`. -/
def setNonBufferedMode (K : Constants) (self : Handle) : Handle × List Step :=
  (self,
    [ Step.writeCharacterDirect K.SET_BUFFERED_MODE_CHARACTER,
      Step.writeCharacterDirect 0x01 ])

/-- Method `FutabaVFD162S::setBufferedMode`. -/
def setBufferedMode (K : Constants) (self : Handle) : Handle × List Step :=
  (self,
    [ Step.writeCharacterDirect K.SET_BUFFERED_MODE_CHARACTER,
      Step.writeCharacterDirect 0x02 ])

/-- Method `FutabaVFD162S::printMessageBuffer`. -/
def printMessageBuffer (K : Constants) (self : Handle) : Handle × List Step :=
  (self, [Step.writeCharacterDirect K.PRINT_MESSAGE_BUFFER_CHARACTER])


/-- The events of one bit cell in the words of the specification: the data
line takes the level of bit `i` of `v` (HIGH iff the bit is 1), then the data
setup delay, clock LOW, the half period delay, clock HIGH and the rest of the
half period. -/
def bitCell (K : Constants) (self : Handle) (v i : Nat) : List Event :=
  [ Event.digitalWrite self._dataPin
      (if v / 2 ^ i % 2 = 1 then Level.HIGH else Level.LOW),
    Event.timingDelay K.DATA_SETUP_TIME,
    Event.digitalWrite self._clockPin Level.LOW,
    Event.timingDelay K.HALF_PERIOD_TIME,
    Event.digitalWrite self._clockPin Level.HIGH,
    Event.timingDelay (K.HALF_PERIOD_TIME - K.DATA_SETUP_TIME) ]

/-- The transpose back from column-major to row-major, in the words of the
specification: `columns` holds the bytes for the pixel columns 4, 3, 2, 1, 0
in that order; row `k` of the result has bit `c` set iff the byte for column
`c` has bit `k` set. -/
def untranspose (columns : List Nat) : List Nat :=
  (List.range 8).map (fun k =>
    ((columns.getD 0 0).testBit k).toNat * 16
      + ((columns.getD 1 0).testBit k).toNat * 8
      + ((columns.getD 2 0).testBit k).toNat * 4
      + ((columns.getD 3 0).testBit k).toNat * 2
      + ((columns.getD 4 0).testBit k).toNat * 1)

/-- A row byte masked to its low five bits, the width of a character cell. -/
def maskRows (pixels : List Nat) : List Nat :=
  pixels.map (fun p => p &&& 0b11111)

/-- The operations of the driver that can follow the constructor, each with
its arguments: `begin`, the public commands, and the byte primitive
`writeCharacterDirect`. -/
inductive Command where
  | begin (numColumns : Nat) (numRows : Int)
  | clear
  | home
  | createChar (characterIndex : Nat) (pixels : List Nat)
  | setCursor (column row : Nat)
  | write (character : Nat)
  | setBrightness (level : Nat)
  | setCursorModeAutoInc
  | setCursorModeAutoDec
  | setCursorModeNonInc
  | setFlashPositions (start stop : Nat)
  | setFlashModeEnabled
  | setFlashModeDisabled
  | setFlashRate50
  | setFlashRate1
  | setFlashRateTenth
  | setFontWestern
  | setFontKatakana
  | setNonBufferedMode
  | setBufferedMode
  | printMessageBuffer
  | writeCharacterDirect (character : Nat)
  deriving DecidableEq, Repr

/-- Whether a command is `begin`, the one operation after construction that
assigns member variables. -/
def Command.isBegin : Command → Bool
  | Command.begin _ _ => true
  | _ => false

/-- One operation on a handle: the handle afterwards and the steps executed.
The value returned by `write` is dropped. -/
def run (K : Constants) (self : Handle) : Command → Handle × List Step
  | Command.begin numColumns numRows => begin K self numColumns numRows
  | Command.clear => clear K self
  | Command.home => home K self
  | Command.createChar characterIndex pixels => createChar K self characterIndex pixels
  | Command.setCursor column row => setCursor K self column row
  | Command.write character => ((write K self character).1, (write K self character).2.1)
  | Command.setBrightness level => setBrightness K self level
  | Command.setCursorModeAutoInc => setCursorModeAutoInc K self
  | Command.setCursorModeAutoDec => setCursorModeAutoDec K self
  | Command.setCursorModeNonInc => setCursorModeNonInc K self
  | Command.setFlashPositions start stop => setFlashPositions K self start stop
  | Command.setFlashModeEnabled => setFlashModeEnabled K self
  | Command.setFlashModeDisabled => setFlashModeDisabled K self
  | Command.setFlashRate50 => setFlashRate50 K self
  | Command.setFlashRate1 => setFlashRate1 K self
  | Command.setFlashRateTenth => setFlashRateTenth K self
  | Command.setFontWestern => setFontWestern K self
  | Command.setFontKatakana => setFontKatakana K self
  | Command.setNonBufferedMode => setNonBufferedMode K self
  | Command.setBufferedMode => setBufferedMode K self
  | Command.printMessageBuffer => printMessageBuffer K self
  | Command.writeCharacterDirect character =>
      (self, [Step.writeCharacterDirect character])

/-- The pin level trace of one operation: its steps, expanded with the pins
of the handle the operation leaves. -/
def runWire (K : Constants) (self : Handle) (cmd : Command) : List Event :=
  wire K (run K self cmd).1 (run K self cmd).2

/-- A sequence of operations, one after the other: the final handle and the
pin level trace of the whole sequence. -/
def runAll (K : Constants) (self : Handle) : List Command → Handle × List Event
  | [] => (self, [])
  | cmd :: rest =>
      ((runAll K (run K self cmd).1 rest).1,
        runWire K self cmd ++ (runAll K (run K self cmd).1 rest).2)

/-- The pin an event touches: the pin written by `digitalWrite` or configured
by `pinMode`; a delay touches none. -/
def Event.pin? : Event → Option Nat
  | Event.digitalWrite pin _ => some pin
  | Event.pinMode pin => some pin
  | Event.timingDelay _ => none

/-- The levels written to `pin` by `digitalWrite`, in order. -/
def levelsWritten (pin : Nat) : List Event → List Level
  | [] => []
  | Event.digitalWrite p level :: rest =>
      if p = pin then level :: levelsWritten pin rest else levelsWritten pin rest
  | Event.pinMode _ :: rest => levelsWritten pin rest
  | Event.timingDelay _ :: rest => levelsWritten pin rest

/-- The durations requested from `timingDelay`, in order. -/
def delays : List Event → List Int
  | [] => []
  | Event.timingDelay duration :: rest => duration :: delays rest
  | Event.digitalWrite _ _ :: rest => delays rest
  | Event.pinMode _ :: rest => delays rest

/-- The clock levels of `n` clock pulses: LOW then HIGH, `n` times. -/
def pulses : Nat → List Level
  | 0 => []
  | n + 1 => Level.LOW :: Level.HIGH :: pulses n

/-- A step that is a byte transmission, a delay, or a write to a reset pin
that is in use: the only kinds of step an operation executes. -/
def Step.plain (K : Constants) (self : Handle) : Step → Bool
  | Step.writeCharacterDirect _ => true
  | Step.gpio (Event.timingDelay _) => true
  | Step.gpio (Event.digitalWrite pin _) =>
      decide (pin = self._resetPin) && decide (self._resetPin ≠ K.DO_NOT_USE_PIN)
  | Step.gpio (Event.pinMode _) => false

/-! ## Auxiliary facts about the loops -/

theorem land_two_pow_bne_zero (v i : Nat) : (v &&& 2 ^ i != 0) = v.testBit i := by
  rw [Nat.and_two_pow]
  cases v.testBit i <;> simp

theorem writeCharacterDirectLoop_zero (K : Constants) (self : Handle) (v : Nat) :
    writeCharacterDirectLoop K self v 0 = [] := by
  rw [writeCharacterDirectLoop]; simp

theorem writeCharacterDirectLoop_two_pow (K : Constants) (self : Handle) (v i : Nat) :
    writeCharacterDirectLoop K self v (2 ^ (i + 1)) =
      bitCell K self v (i + 1) ++ writeCharacterDirectLoop K self v (2 ^ i) := by
  rw [writeCharacterDirectLoop]
  have h : 2 ^ (i + 1) ≠ 0 := by positivity
  have h2 : 2 ^ (i + 1) >>> 1 = 2 ^ i := by
    rw [Nat.shiftRight_eq_div_pow, pow_succ]; simp
  simp only [h, ↓reduceDIte, h2, land_two_pow_bne_zero, bitCell, Nat.testBit_to_div_mod,
    decide_eq_true_eq]

theorem writeCharacterDirectLoop_one (K : Constants) (self : Handle) (v : Nat) :
    writeCharacterDirectLoop K self v 1 = bitCell K self v 0 := by
  rw [writeCharacterDirectLoop]
  have h := land_two_pow_bne_zero v 0
  rw [Nat.testBit_to_div_mod] at h
  simp only [pow_zero] at h
  simp [h, bitCell, writeCharacterDirectLoop_zero]

theorem writeCharacterDirect_eq (K : Constants) (self : Handle) (v : Nat) :
    writeCharacterDirect K self v =
      bitCell K self v 7 ++ bitCell K self v 6 ++ bitCell K self v 5 ++ bitCell K self v 4
        ++ bitCell K self v 3 ++ bitCell K self v 2 ++ bitCell K self v 1 ++ bitCell K self v 0
        ++ [Event.timingDelay K.PROCESS_TIME] := by
  have e : (0b10000000 : Nat) = 2 ^ (6 + 1) := by norm_num
  unfold writeCharacterDirect
  rw [e, writeCharacterDirectLoop_two_pow, writeCharacterDirectLoop_two_pow,
    writeCharacterDirectLoop_two_pow, writeCharacterDirectLoop_two_pow,
    writeCharacterDirectLoop_two_pow, writeCharacterDirectLoop_two_pow,
    writeCharacterDirectLoop_two_pow, pow_zero, writeCharacterDirectLoop_one]
  simp

/-! ## Cursor addressing -/

/-- The address byte of `setCursor`, in general: the 8-bit address is clamped
against the stored cell count and sent incremented, again as a byte. -/
theorem setCursor_steps (K : Constants) (self : Handle) (column row : Nat) :
    (setCursor K self column row).2 =
      [ Step.writeCharacterDirect K.SET_CURSOR_POSITION_CHARACTER,
        Step.writeCharacterDirect
          (((if (row * self._numDisplayColumns + column) % 256 ≥ self._numDisplayCharacters
              then 0 else (row * self._numDisplayColumns + column) % 256) + 1) % 256) ] := by
  simp [setCursor]

/-- C1 (as amended): after `begin(c, r)` with `c * r ≤ 65535`, for a cell with
`row * c + col < c * r` whose address `row * c + col + 1` fits a byte,
`setCursor(col, row)` executes exactly two byte transmissions: the set-cursor
opcode, then `row * c + col + 1`. -/
theorem setCursor_in_range (K : Constants) (self : Handle) (c : Nat) (r : Int)
    (col row : Nat)
    (hcells : (c : Int) * r < 65536)
    (hin : ((row * c + col : Nat) : Int) < (c : Int) * r)
    (hbyte : row * c + col < 255) :
    (setCursor K (begin K self c r).1 col row).2 =
      [ Step.writeCharacterDirect K.SET_CURSOR_POSITION_CHARACTER,
        Step.writeCharacterDirect (row * c + col + 1) ] := by
  have hfield : (begin K self c r).1._numDisplayColumns = c
      ∧ (begin K self c r).1._numDisplayCharacters = (((c : Int) * r) % 65536).toNat := by
    unfold begin clear
    by_cases h : self._resetPin = K.DO_NOT_USE_PIN <;> simp [h]
  rw [setCursor_steps, hfield.1, hfield.2]
  generalize row * c = P at hin hbyte ⊢
  generalize (c : Int) * r = Q at hcells hin ⊢
  have h1 : (P + col) % 256 = P + col := by omega
  have h2 : ¬ (P + col ≥ (Q % 65536).toNat) := by omega
  have h3 : (P + col + 1) % 256 = P + col + 1 := by omega
  rw [h1, if_neg h2, h3]

/-- Witness for C1: a 20 x 2 display, cell (5, 1). -/
theorem setCursor_in_range_witness :
    (setCursor sampleConstants
        (begin sampleConstants (FutabaVFD162S sampleConstants 2 3 255).1 20 2).1 5 1).2 =
      [ Step.writeCharacterDirect sampleConstants.SET_CURSOR_POSITION_CHARACTER,
        Step.writeCharacterDirect (1 * 20 + 5 + 1) ] :=
  setCursor_in_range sampleConstants (FutabaVFD162S sampleConstants 2 3 255).1 20 2 5 1
    (by decide) (by decide) (by decide)

/-- C1 fails as stated.  On a 16 x 16 display the cell (15, 15) is in range
(255 < 256), yet the byte after the opcode is 0, not 256.  On a display
declared as 128 x 512 the cell (5, 0) is in range (5 < 65536), yet the byte
after the opcode is 1, not 6: the 16-bit cell count is 0. -/
theorem setCursor_in_range_counterexample :
    ((15 * 16 + 15 < 16 * 16)
      ∧ (setCursor sampleConstants
          (begin sampleConstants (FutabaVFD162S sampleConstants 2 3 255).1 16 16).1 15 15).2 =
          [ Step.writeCharacterDirect sampleConstants.SET_CURSOR_POSITION_CHARACTER,
            Step.writeCharacterDirect 0 ]
      ∧ (setCursor sampleConstants
          (begin sampleConstants (FutabaVFD162S sampleConstants 2 3 255).1 16 16).1 15 15).2 ≠
          [ Step.writeCharacterDirect sampleConstants.SET_CURSOR_POSITION_CHARACTER,
            Step.writeCharacterDirect (15 * 16 + 15 + 1) ])
    ∧ ((0 * 128 + 5 < 128 * 512)
      ∧ (setCursor sampleConstants
          (begin sampleConstants (FutabaVFD162S sampleConstants 2 3 255).1 128 512).1 5 0).2 =
          [ Step.writeCharacterDirect sampleConstants.SET_CURSOR_POSITION_CHARACTER,
            Step.writeCharacterDirect 1 ]
      ∧ (setCursor sampleConstants
          (begin sampleConstants (FutabaVFD162S sampleConstants 2 3 255).1 128 512).1 5 0).2 ≠
          [ Step.writeCharacterDirect sampleConstants.SET_CURSOR_POSITION_CHARACTER,
            Step.writeCharacterDirect (0 * 128 + 5 + 1) ]) := by
  decide

/-- C2 at the failing input: on a 20 x 2 display (40 cells) the position
column 0, row 13 has `row * c + col = 260 ≥ 40`, yet `setCursor(0, 13)` sends
the address byte 5 (cell 4), not 1: the 8-bit address wrapped to 4 before the
range check. -/
theorem setCursor_out_of_range_wraps :
    (13 * 20 + 0 ≥ 20 * 2)
    ∧ (setCursor sampleConstants
        (begin sampleConstants (FutabaVFD162S sampleConstants 2 3 255).1 20 2).1 0 13).2 =
        [ Step.writeCharacterDirect sampleConstants.SET_CURSOR_POSITION_CHARACTER,
          Step.writeCharacterDirect 5 ]
    ∧ (setCursor sampleConstants
        (begin sampleConstants (FutabaVFD162S sampleConstants 2 3 255).1 20 2).1 0 13).2 ≠
        [ Step.writeCharacterDirect sampleConstants.SET_CURSOR_POSITION_CHARACTER,
          Step.writeCharacterDirect 1 ] := by
  decide

/-! ## The byte primitive -/

/-- C3: for every byte value `v`, `writeCharacterDirect(v)` produces the eight
bit cells for bits 7 down to 0 of `v` (data level HIGH iff the bit is 1, then
the data setup delay, clock LOW, half period delay, clock HIGH, and the half
period minus data setup delay), then one `PROCESS_TIME` delay; these are 49
events for every `v`, and the traces of two values agree at every position
that is not one of the eight data writes (positions 0, 6, ..., 42). -/
theorem writeCharacterDirect_trace (K : Constants) (self : Handle) (v : Nat) :
    writeCharacterDirect K self v =
        [7, 6, 5, 4, 3, 2, 1, 0].flatMap (bitCell K self v)
          ++ [Event.timingDelay K.PROCESS_TIME]
    ∧ (writeCharacterDirect K self v).length = 49
    ∧ ∀ w : Nat, ∀ n : Nat, n < 49 → (n % 6 ≠ 0 ∨ n = 48) →
        (writeCharacterDirect K self v).getD n (Event.pinMode 0) =
          (writeCharacterDirect K self w).getD n (Event.pinMode 0) := by
  refine ⟨?_, ?_, ?_⟩
  · rw [writeCharacterDirect_eq]; simp [List.flatMap]
  · rw [writeCharacterDirect_eq]; simp [bitCell]
  · intro w n hn hmod
    rw [writeCharacterDirect_eq, writeCharacterDirect_eq]
    simp only [bitCell, List.cons_append, List.nil_append]
    interval_cases n <;> first | rfl | omega

/-! ## Custom characters -/

theorem testBit_128 (j : Nat) : Nat.testBit 128 j = decide (j = 7) := by
  have h := @Nat.testBit_two_pow 7 j
  simp only [show (2 : Nat) ^ 7 = 128 by norm_num] at h
  rw [h]
  simp [eq_comm]

theorem shiftRight_one_lor_128_lt (cur : Nat) (h : cur < 256) : cur >>> 1 ||| 128 < 256 := by
  have h1 : cur >>> 1 < 2 ^ 8 := by
    rw [Nat.shiftRight_eq_div_pow]; omega
  exact Nat.or_lt_two_pow h1 (by norm_num)

theorem shiftRight_one_lt (cur : Nat) (h : cur < 256) : cur >>> 1 < 256 := by
  rw [Nat.shiftRight_eq_div_pow]; omega

/-- The inner loop keeps `currentByte` a byte. -/
theorem createCharInner_lt (K : Constants) (pixels : List Nat) (testBit : Nat) :
    ∀ (m i cur : Nat), K.CHARACTER_PIXEL_HEIGHT - i = m → cur < 256 →
      createCharInner K pixels testBit i cur < 256 := by
  intro m
  induction m with
  | zero =>
    intro i cur hm hcur
    rw [createCharInner]
    have : ¬ i < K.CHARACTER_PIXEL_HEIGHT := by omega
    simpa only [this, ↓reduceDIte] using hcur
  | succ m ih =>
    intro i cur hm hcur
    rw [createCharInner]
    have hi : i < K.CHARACTER_PIXEL_HEIGHT := by omega
    simp only [hi, ↓reduceDIte]
    split
    · exact ih (i + 1) _ (by omega) (shiftRight_one_lor_128_lt cur hcur)
    · exact ih (i + 1) _ (by omega) (shiftRight_one_lt cur hcur)

/-- Bits of the result of the inner loop entered at row `i` with `m` rows to
go: each row shifts the byte right and enters at bit 7. -/
theorem createCharInner_testBit (K : Constants) (pixels : List Nat) (c : Nat) :
    ∀ (m i cur : Nat), K.CHARACTER_PIXEL_HEIGHT - i = m → cur < 256 → ∀ j : Nat,
      (createCharInner K pixels (2 ^ c) i cur).testBit j =
        if j < 8 ∧ 8 ≤ j + m then (pixels.getD (K.CHARACTER_PIXEL_HEIGHT + j - 8) 0).testBit c
        else cur.testBit (j + m) := by
  intro m
  induction m with
  | zero =>
    intro i cur hm _ j
    rw [createCharInner]
    have : ¬ i < K.CHARACTER_PIXEL_HEIGHT := by omega
    simp only [this, ↓reduceDIte, Nat.add_zero]
    have : ¬ (j < 8 ∧ 8 ≤ j) := by omega
    simp [this]
  | succ m ih =>
    intro i cur hm hcur j
    rw [createCharInner]
    have hi : i < K.CHARACTER_PIXEL_HEIGHT := by omega
    simp only [hi, ↓reduceDIte, land_two_pow_bne_zero]
    have hc8 : cur.testBit 8 = false := Nat.testBit_lt_two_pow (by simpa using hcur)
    by_cases hb : (pixels.getD i 0).testBit c
    · simp only [hb, ↓reduceIte]
      rw [ih (i + 1) _ (by omega) (shiftRight_one_lor_128_lt cur hcur) j]
      simp only [Nat.testBit_or, Nat.testBit_shiftRight, testBit_128]
      by_cases h1 : j < 8 ∧ 8 ≤ j + m
      · have h2 : j < 8 ∧ 8 ≤ j + (m + 1) := by omega
        simp only [h1, h2, and_self, ↓reduceIte]
      · by_cases h3 : j + m = 7
        · have h2 : j < 8 ∧ 8 ≤ j + (m + 1) := by omega
          have hidx : K.CHARACTER_PIXEL_HEIGHT + j - 8 = i := by omega
          rw [if_neg h1, if_pos h2, hidx, hb]
          simp [h3]
        · have h2 : ¬ (j < 8 ∧ 8 ≤ j + (m + 1)) := by omega
          have h4 : 1 + (j + m) = j + (m + 1) := by omega
          simp [h1, h2, h3, h4]
    · simp only [hb, Bool.false_eq_true, ↓reduceIte]
      rw [ih (i + 1) _ (by omega) (shiftRight_one_lt cur hcur) j]
      simp only [Nat.testBit_shiftRight]
      by_cases h1 : j < 8 ∧ 8 ≤ j + m
      · have h2 : j < 8 ∧ 8 ≤ j + (m + 1) := by omega
        simp only [h1, h2, and_self, ↓reduceIte]
      · by_cases h3 : j + m = 7
        · have h2 : j < 8 ∧ 8 ≤ j + (m + 1) := by omega
          have hidx : K.CHARACTER_PIXEL_HEIGHT + j - 8 = i := by omega
          have h4 : 1 + (j + m) = 8 := by omega
          rw [if_neg h1, if_pos h2, hidx, h4, hc8]
          simpa using hb
        · have h2 : ¬ (j < 8 ∧ 8 ≤ j + (m + 1)) := by omega
          have h4 : 1 + (j + m) = j + (m + 1) := by omega
          simp [h1, h2, h4]

/-- With eight rows, bit `k` of the byte built for pixel column `c` is bit `c`
of row `k`. -/
theorem createCharInner_eight (K : Constants) (hH : K.CHARACTER_PIXEL_HEIGHT = 8)
    (pixels : List Nat) (c testBit : Nat) (htb : testBit = 2 ^ c) (k : Nat) (hk : k < 8) :
    (createCharInner K pixels testBit 0 128).testBit k = (pixels.getD k 0).testBit c := by
  subst htb
  rw [createCharInner_testBit K pixels c 8 0 128 (by omega) (by norm_num) k]
  have h : k < 8 ∧ 8 ≤ k + 8 := by omega
  rw [if_pos h, hH]
  congr 2
  omega

theorem createCharColumns_zero (K : Constants) (pixels : List Nat) :
    createCharColumns K pixels 0 = [] := by
  rw [createCharColumns]; simp

theorem createCharColumns_two_pow (K : Constants) (pixels : List Nat) (c : Nat) :
    createCharColumns K pixels (2 ^ (c + 1)) =
      createCharInner K pixels (2 ^ (c + 1)) 0 128 :: createCharColumns K pixels (2 ^ c) := by
  rw [createCharColumns]
  have h : 2 ^ (c + 1) ≠ 0 := by positivity
  have h2 : 2 ^ (c + 1) >>> 1 = 2 ^ c := by
    rw [Nat.shiftRight_eq_div_pow, pow_succ]; simp
  simp only [h, ↓reduceDIte, h2]

theorem createCharColumns_one (K : Constants) (pixels : List Nat) :
    createCharColumns K pixels 1 = [createCharInner K pixels (2 ^ 0) 0 128] := by
  rw [createCharColumns]
  simp [createCharColumns_zero]

/-- The outer loop runs for the test bits 16, 8, 4, 2, 1: five bytes, for the
pixel columns 4, 3, 2, 1, 0. -/
theorem createCharColumns_16 (K : Constants) (pixels : List Nat) :
    createCharColumns K pixels 0b10000 =
      [ createCharInner K pixels 16 0 128, createCharInner K pixels 8 0 128,
        createCharInner K pixels 4 0 128, createCharInner K pixels 2 0 128,
        createCharInner K pixels 1 0 128 ] := by
  have e : (0b10000 : Nat) = 2 ^ (3 + 1) := by norm_num
  rw [e, createCharColumns_two_pow, createCharColumns_two_pow, createCharColumns_two_pow,
    createCharColumns_two_pow, pow_zero, createCharColumns_one]
  norm_num

theorem bytesSent_map (bs : List Nat) : bytesSent (bs.map Step.writeCharacterDirect) = bs := by
  induction bs with
  | nil => rfl
  | cons b bs ih => simp [bytesSent, ih]

/-- The bytes `createChar` transmits: opcode, slot byte, five column bytes. -/
theorem createChar_bytesSent (K : Constants) (self : Handle) (characterIndex : Nat)
    (pixels : List Nat) :
    bytesSent (createChar K self characterIndex pixels).2 =
      [ K.LOAD_USER_CHARACTER_CHARACTER,
        ((characterIndex &&& ((K.NUM_CUSTOM_CHARACTERS + 255) % 256)) + 1) % 256,
        createCharInner K pixels 16 0 128, createCharInner K pixels 8 0 128,
        createCharInner K pixels 4 0 128, createCharInner K pixels 2 0 128,
        createCharInner K pixels 1 0 128 ] := by
  simp only [createChar, createCharColumns_16, List.map, List.cons_append, List.nil_append,
    bytesSent]

/-- C4 (as amended): with eight pixel rows, the five bytes `createChar`
transmits after the opcode and the slot byte are for the pixel columns 4, 3,
2, 1, 0 in that order; each is a byte, and in the byte for column `c` bit `k`
counted from the least significant bit upward (`k` = 0..7) is set iff row
`k` has bit `c` set: row 0 is the least significant bit, row 7 the most
significant. -/
theorem createChar_column_bits (K : Constants) (hH : K.CHARACTER_PIXEL_HEIGHT = 8)
    (self : Handle) (characterIndex : Nat) (pixels : List Nat) (hlen : pixels.length = 8) :
    ((bytesSent (createChar K self characterIndex pixels).2).drop 2).length = 5
    ∧ ∀ j : Nat, j < 5 →
        ((bytesSent (createChar K self characterIndex pixels).2).drop 2).getD j 0 < 256
        ∧ ∀ k : Nat, k < 8 →
          (((bytesSent (createChar K self characterIndex pixels).2).drop 2).getD j 0).testBit k
            = (pixels.getD k 0).testBit (4 - j) := by
  have _ := hlen
  rw [createChar_bytesSent]
  refine ⟨rfl, ?_⟩
  intro j hj
  have hlt : ∀ tb, createCharInner K pixels tb 0 128 < 256 := fun tb =>
    createCharInner_lt K pixels tb _ 0 128 rfl (by norm_num)
  interval_cases j
  · exact ⟨hlt 16, fun k hk => createCharInner_eight K hH pixels 4 16 (by norm_num) k hk⟩
  · exact ⟨hlt 8, fun k hk => createCharInner_eight K hH pixels 3 8 (by norm_num) k hk⟩
  · exact ⟨hlt 4, fun k hk => createCharInner_eight K hH pixels 2 4 (by norm_num) k hk⟩
  · exact ⟨hlt 2, fun k hk => createCharInner_eight K hH pixels 1 2 (by norm_num) k hk⟩
  · exact ⟨hlt 1, fun k hk => createCharInner_eight K hH pixels 0 1 (by norm_num) k hk⟩

/-- Witness for C4: a glyph with rows 0x10, 0x08, 0x04, 0x02, 0x01, 0x1F, 0x00, 0x15. -/
theorem createChar_column_bits_witness :
    ((bytesSent (createChar sampleConstants (FutabaVFD162S sampleConstants 2 3 255).1 3
        [0x10, 0x08, 0x04, 0x02, 0x01, 0x1F, 0x00, 0x15]).2).drop 2).length = 5
    ∧ ∀ j : Nat, j < 5 →
        ((bytesSent (createChar sampleConstants (FutabaVFD162S sampleConstants 2 3 255).1 3
          [0x10, 0x08, 0x04, 0x02, 0x01, 0x1F, 0x00, 0x15]).2).drop 2).getD j 0 < 256
        ∧ ∀ k : Nat, k < 8 →
          (((bytesSent (createChar sampleConstants (FutabaVFD162S sampleConstants 2 3 255).1 3
            [0x10, 0x08, 0x04, 0x02, 0x01, 0x1F, 0x00, 0x15]).2).drop 2).getD j 0).testBit k
            = (([0x10, 0x08, 0x04, 0x02, 0x01, 0x1F, 0x00, 0x15] : List Nat).getD k 0).testBit
                (4 - j) :=
  createChar_column_bits sampleConstants rfl (FutabaVFD162S sampleConstants 2 3 255).1 3
    [0x10, 0x08, 0x04, 0x02, 0x01, 0x1F, 0x00, 0x15] rfl

/-- C4 fails as stated.  For the glyph whose only pixel is bit 4 of row 0 the
bytes sent are the opcode, the slot byte and the column bytes 1, 0, 0, 0, 0.
Row 0 has bit 4 set, but in the byte for column 4 (the value 1) the bit
counted 0 from the most significant bit downward, bit 7, is clear. -/
theorem createChar_column_bits_counterexample :
    bytesSent (createChar sampleConstants (FutabaVFD162S sampleConstants 2 3 255).1 0
        [0x10, 0, 0, 0, 0, 0, 0, 0]).2 =
      [sampleConstants.LOAD_USER_CHARACTER_CHARACTER, 1, 1, 0, 0, 0, 0]
    ∧ ¬ ((((bytesSent (createChar sampleConstants (FutabaVFD162S sampleConstants 2 3 255).1 0
          [0x10, 0, 0, 0, 0, 0, 0, 0]).2).drop 2).getD 0 0).testBit (7 - 0)
        = (([0x10, 0, 0, 0, 0, 0, 0, 0] : List Nat).getD 0 0).testBit 4) := by
  have h : bytesSent (createChar sampleConstants (FutabaVFD162S sampleConstants 2 3 255).1 0
        [0x10, 0, 0, 0, 0, 0, 0, 0]).2 =
      [sampleConstants.LOAD_USER_CHARACTER_CHARACTER, 1, 1, 0, 0, 0, 0] := by
    rw [createChar_bytesSent]
    simp +decide [createCharInner, sampleConstants]
  rw [h]
  exact ⟨rfl, by decide⟩

/-! ## Text output -/

/-- C5: with at most 0x20 custom character codes, all of which the translate
offset maps to a byte, `write(v)` transmits exactly the byte
`v + CUSTOM_CHARACTER_TRANSLATE_OFFSET` and returns 1 if
`v < NUM_CUSTOM_CHARACTERS`; transmits nothing and returns 0 if
`NUM_CUSTOM_CHARACTERS ≤ v < 0x20`; transmits exactly `v` and returns 1 if
`v ≥ 0x20`.  The return value is the number of bytes transmitted. -/
theorem write_cases (K : Constants)
    (hN : K.NUM_CUSTOM_CHARACTERS ≤ 0x20)
    (hO : K.NUM_CUSTOM_CHARACTERS + K.CUSTOM_CHARACTER_TRANSLATE_OFFSET ≤ 256)
    (self : Handle) (v : Nat) :
    (v < K.NUM_CUSTOM_CHARACTERS →
        (write K self v).2.1 =
          [Step.writeCharacterDirect (v + K.CUSTOM_CHARACTER_TRANSLATE_OFFSET)]
        ∧ (write K self v).2.2 = 1)
    ∧ (K.NUM_CUSTOM_CHARACTERS ≤ v → v < 0x20 →
        (write K self v).2.1 = [] ∧ (write K self v).2.2 = 0)
    ∧ (0x20 ≤ v →
        (write K self v).2.1 = [Step.writeCharacterDirect v] ∧ (write K self v).2.2 = 1)
    ∧ (write K self v).2.2 = (bytesSent (write K self v).2.1).length := by
  refine ⟨?_, ?_, ?_, ?_⟩
  · intro h
    have hmod : (v + K.CUSTOM_CHARACTER_TRANSLATE_OFFSET) % 256
        = v + K.CUSTOM_CHARACTER_TRANSLATE_OFFSET := by omega
    simp [write, h, hmod]
  · intro h1 h2
    have h3 : ¬ v < K.NUM_CUSTOM_CHARACTERS := by omega
    have h4 : v < 32 := h2
    simp [write, h3, h4]
  · intro h
    have h3 : ¬ v < K.NUM_CUSTOM_CHARACTERS := by omega
    have h4 : ¬ v < 32 := by omega
    simp [write, h3, h4]
  · unfold write
    split
    · rfl
    · split <;> rfl

/-- Witness for C5: the sample constants (8 custom characters, offset 0xF6)
and the character code 3. -/
theorem write_cases_witness :
    (3 < sampleConstants.NUM_CUSTOM_CHARACTERS →
        (write sampleConstants (FutabaVFD162S sampleConstants 2 3 255).1 3).2.1 =
          [Step.writeCharacterDirect (3 + sampleConstants.CUSTOM_CHARACTER_TRANSLATE_OFFSET)]
        ∧ (write sampleConstants (FutabaVFD162S sampleConstants 2 3 255).1 3).2.2 = 1)
    ∧ (sampleConstants.NUM_CUSTOM_CHARACTERS ≤ 3 → 3 < 0x20 →
        (write sampleConstants (FutabaVFD162S sampleConstants 2 3 255).1 3).2.1 = []
        ∧ (write sampleConstants (FutabaVFD162S sampleConstants 2 3 255).1 3).2.2 = 0)
    ∧ (0x20 ≤ 3 →
        (write sampleConstants (FutabaVFD162S sampleConstants 2 3 255).1 3).2.1 =
          [Step.writeCharacterDirect 3]
        ∧ (write sampleConstants (FutabaVFD162S sampleConstants 2 3 255).1 3).2.2 = 1)
    ∧ (write sampleConstants (FutabaVFD162S sampleConstants 2 3 255).1 3).2.2 =
        (bytesSent (write sampleConstants (FutabaVFD162S sampleConstants 2 3 255).1 3).2.1).length :=
  write_cases sampleConstants (by decide) (by decide) (FutabaVFD162S sampleConstants 2 3 255).1 3

/-! ## Initialization -/

/-- C6: on a handle whose reset pin is the unused sentinel, `begin(c, r)`
waits the post-reset delay and then transmits exactly the bytes I/O mode
select, 0x00, clear display, for every `c` and `r`; after `begin(20, 2)`,
`setCursor(5, 1)` transmits the set-cursor opcode and 26. -/
theorem begin_without_reset_pin (K : Constants) (self : Handle)
    (hpin : self._resetPin = K.DO_NOT_USE_PIN) (c : Nat) (r : Int) :
    (begin K self c r).2 =
      [ Step.gpio (Event.timingDelay K.POST_RESET_DELAY_TIME),
        Step.writeCharacterDirect K.SET_INPUT_OUTPUT_MODE_CHARACTER,
        Step.writeCharacterDirect 0x00,
        Step.writeCharacterDirect K.CLEAR_ENTIRE_DISPLAY_CHARACTER ]
    ∧ bytesSent (begin K self c r).2 =
      [ K.SET_INPUT_OUTPUT_MODE_CHARACTER, 0x00, K.CLEAR_ENTIRE_DISPLAY_CHARACTER ]
    ∧ (bytesSent (begin K self c r).2).getLast? = some K.CLEAR_ENTIRE_DISPLAY_CHARACTER
    ∧ (setCursor K (begin K self 20 2).1 5 1).2 =
      [ Step.writeCharacterDirect K.SET_CURSOR_POSITION_CHARACTER,
        Step.writeCharacterDirect 26 ] := by
  have hsteps : (begin K self c r).2 =
      [ Step.gpio (Event.timingDelay K.POST_RESET_DELAY_TIME),
        Step.writeCharacterDirect K.SET_INPUT_OUTPUT_MODE_CHARACTER,
        Step.writeCharacterDirect 0x00,
        Step.writeCharacterDirect K.CLEAR_ENTIRE_DISPLAY_CHARACTER ] := by
    simp [begin, clear, hpin]
  refine ⟨hsteps, ?_, ?_, ?_⟩
  · rw [hsteps]; rfl
  · rw [hsteps]; rfl
  · simp [setCursor, begin, clear, hpin]

/-- Witness for C6: the handle constructed with clock pin 2, data pin 3 and
the reset pin unused, then `begin(20, 2)`. -/
theorem begin_without_reset_pin_witness :
    (begin sampleConstants
        (FutabaVFD162S sampleConstants 2 3 sampleConstants.DO_NOT_USE_PIN).1 20 2).2 =
      [ Step.gpio (Event.timingDelay sampleConstants.POST_RESET_DELAY_TIME),
        Step.writeCharacterDirect sampleConstants.SET_INPUT_OUTPUT_MODE_CHARACTER,
        Step.writeCharacterDirect 0x00,
        Step.writeCharacterDirect sampleConstants.CLEAR_ENTIRE_DISPLAY_CHARACTER ]
    ∧ bytesSent (begin sampleConstants
        (FutabaVFD162S sampleConstants 2 3 sampleConstants.DO_NOT_USE_PIN).1 20 2).2 =
      [ sampleConstants.SET_INPUT_OUTPUT_MODE_CHARACTER, 0x00,
        sampleConstants.CLEAR_ENTIRE_DISPLAY_CHARACTER ]
    ∧ (bytesSent (begin sampleConstants
        (FutabaVFD162S sampleConstants 2 3 sampleConstants.DO_NOT_USE_PIN).1 20 2).2).getLast? =
      some sampleConstants.CLEAR_ENTIRE_DISPLAY_CHARACTER
    ∧ (setCursor sampleConstants (begin sampleConstants
        (FutabaVFD162S sampleConstants 2 3 sampleConstants.DO_NOT_USE_PIN).1 20 2).1 5 1).2 =
      [ Step.writeCharacterDirect sampleConstants.SET_CURSOR_POSITION_CHARACTER,
        Step.writeCharacterDirect 26 ] :=
  begin_without_reset_pin sampleConstants
    (FutabaVFD162S sampleConstants 2 3 sampleConstants.DO_NOT_USE_PIN).1 rfl 20 2

/-- C7: on a handle with a reset pin, `begin(c, r)` executes, in this order:
reset pin HIGH, the `RESET_HOLD_TIME` delay, reset pin LOW, the
`POST_RESET_DELAY_TIME` delay, then the byte transmissions I/O mode select
and 0x00, and nothing else (no clear display).  When the reset pin is a pin
of its own, the pin level trace up to and including the settle delay holds no
write to the clock pin or the data pin. -/
theorem begin_with_reset_pin (K : Constants) (self : Handle)
    (hpin : self._resetPin ≠ K.DO_NOT_USE_PIN) (c : Nat) (r : Int) :
    (begin K self c r).2 =
      [ Step.gpio (Event.digitalWrite self._resetPin Level.HIGH),
        Step.gpio (Event.timingDelay K.RESET_HOLD_TIME),
        Step.gpio (Event.digitalWrite self._resetPin Level.LOW),
        Step.gpio (Event.timingDelay K.POST_RESET_DELAY_TIME),
        Step.writeCharacterDirect K.SET_INPUT_OUTPUT_MODE_CHARACTER,
        Step.writeCharacterDirect 0x00 ]
    ∧ bytesSent ((begin K self c r).2.drop 4) = [K.SET_INPUT_OUTPUT_MODE_CHARACTER, 0x00]
    ∧ bytesSent (begin K self c r).2 = [K.SET_INPUT_OUTPUT_MODE_CHARACTER, 0x00]
    ∧ (self._resetPin ≠ self._clockPin → self._resetPin ≠ self._dataPin →
        ∀ level : Level,
          Event.digitalWrite self._clockPin level ∉
              wire K (begin K self c r).1 ((begin K self c r).2.take 4)
          ∧ Event.digitalWrite self._dataPin level ∉
              wire K (begin K self c r).1 ((begin K self c r).2.take 4)) := by
  have hsteps : (begin K self c r).2 =
      [ Step.gpio (Event.digitalWrite self._resetPin Level.HIGH),
        Step.gpio (Event.timingDelay K.RESET_HOLD_TIME),
        Step.gpio (Event.digitalWrite self._resetPin Level.LOW),
        Step.gpio (Event.timingDelay K.POST_RESET_DELAY_TIME),
        Step.writeCharacterDirect K.SET_INPUT_OUTPUT_MODE_CHARACTER,
        Step.writeCharacterDirect 0x00 ] := by
    simp [begin, hpin]
  have hself : (begin K self c r).1._clockPin = self._clockPin
      ∧ (begin K self c r).1._dataPin = self._dataPin := by
    simp [begin, hpin]
  refine ⟨hsteps, ?_, ?_, ?_⟩
  · rw [hsteps]; rfl
  · rw [hsteps]; rfl
  · intro hclk hdat level
    rw [hsteps]
    simp only [List.take, wire, List.flatMap_cons, List.flatMap_nil, wireStep,
      List.cons_append, List.nil_append, List.mem_cons, Event.digitalWrite.injEq,
      reduceCtorEq, List.mem_nil_iff, or_false, false_or, not_or, not_and]
    exact ⟨⟨fun h => absurd h.symm hclk, fun h => absurd h.symm hclk⟩,
      ⟨fun h => absurd h.symm hdat, fun h => absurd h.symm hdat⟩⟩

/-- Witness for C7: clock pin 2, data pin 3, reset pin 4, `begin(20, 2)`. -/
theorem begin_with_reset_pin_witness :
    (begin sampleConstants (FutabaVFD162S sampleConstants 2 3 4).1 20 2).2 =
      [ Step.gpio (Event.digitalWrite 4 Level.HIGH),
        Step.gpio (Event.timingDelay sampleConstants.RESET_HOLD_TIME),
        Step.gpio (Event.digitalWrite 4 Level.LOW),
        Step.gpio (Event.timingDelay sampleConstants.POST_RESET_DELAY_TIME),
        Step.writeCharacterDirect sampleConstants.SET_INPUT_OUTPUT_MODE_CHARACTER,
        Step.writeCharacterDirect 0x00 ] :=
  (begin_with_reset_pin sampleConstants (FutabaVFD162S sampleConstants 2 3 4).1
    (by decide) 20 2).1

/-! ## Custom character slot and transpose -/

/-- C8: with `NUM_CUSTOM_CHARACTERS` in 1..255, `createChar` executes exactly
seven byte transmissions for every slot index `i` and pixel array; the first
byte is the load-custom-character opcode, the second is
`(i AND (NUM_CUSTOM_CHARACTERS - 1)) + 1`, which lies in
1..`NUM_CUSTOM_CHARACTERS`; when `NUM_CUSTOM_CHARACTERS` is a power of two
(what the mask presupposes) and `i < NUM_CUSTOM_CHARACTERS`, it is `i + 1`. -/
theorem createChar_slot_byte (K : Constants)
    (hpos : 0 < K.NUM_CUSTOM_CHARACTERS) (hN : K.NUM_CUSTOM_CHARACTERS < 256)
    (self : Handle) (i : Nat) (pixels : List Nat) :
    (createChar K self i pixels).2 =
        (bytesSent (createChar K self i pixels).2).map Step.writeCharacterDirect
    ∧ (bytesSent (createChar K self i pixels).2).length = 7
    ∧ (bytesSent (createChar K self i pixels).2).getD 0 0 = K.LOAD_USER_CHARACTER_CHARACTER
    ∧ (bytesSent (createChar K self i pixels).2).getD 1 0
        = (i &&& (K.NUM_CUSTOM_CHARACTERS - 1)) + 1
    ∧ 1 ≤ (bytesSent (createChar K self i pixels).2).getD 1 0
    ∧ (bytesSent (createChar K self i pixels).2).getD 1 0 ≤ K.NUM_CUSTOM_CHARACTERS
    ∧ ((∃ m : Nat, K.NUM_CUSTOM_CHARACTERS = 2 ^ m) → i < K.NUM_CUSTOM_CHARACTERS →
        (bytesSent (createChar K self i pixels).2).getD 1 0 = i + 1) := by
  have hmask : (K.NUM_CUSTOM_CHARACTERS + 255) % 256 = K.NUM_CUSTOM_CHARACTERS - 1 := by
    omega
  have hle : i &&& (K.NUM_CUSTOM_CHARACTERS - 1) ≤ K.NUM_CUSTOM_CHARACTERS - 1 :=
    Nat.and_le_right
  have hslot : ((i &&& (K.NUM_CUSTOM_CHARACTERS - 1)) + 1) % 256
      = (i &&& (K.NUM_CUSTOM_CHARACTERS - 1)) + 1 := by
    omega
  have hsteps : (createChar K self i pixels).2 =
      (bytesSent (createChar K self i pixels).2).map Step.writeCharacterDirect := by
    rw [createChar_bytesSent]
    simp only [createChar, createCharColumns_16, List.map, List.cons_append, List.nil_append]
  rw [createChar_bytesSent, hmask, hslot] at *
  refine ⟨hsteps, rfl, rfl, rfl, ?_, ?_, ?_⟩
  · show 1 ≤ (i &&& (K.NUM_CUSTOM_CHARACTERS - 1)) + 1
    omega
  · show (i &&& (K.NUM_CUSTOM_CHARACTERS - 1)) + 1 ≤ K.NUM_CUSTOM_CHARACTERS
    omega
  · rintro ⟨m, hm⟩ hi
    show (i &&& (K.NUM_CUSTOM_CHARACTERS - 1)) + 1 = i + 1
    rw [hm] at hi ⊢
    rw [Nat.and_pow_two_sub_one_of_lt_two_pow hi]

/-- Witness for C8: eight custom characters, slot index 11, which wraps to
slot byte 4. -/
theorem createChar_slot_byte_witness :
    (bytesSent (createChar sampleConstants (FutabaVFD162S sampleConstants 2 3 255).1 11
        [0x10, 0x08, 0x04, 0x02, 0x01, 0x1F, 0x00, 0x15]).2).length = 7
    ∧ (bytesSent (createChar sampleConstants (FutabaVFD162S sampleConstants 2 3 255).1 11
        [0x10, 0x08, 0x04, 0x02, 0x01, 0x1F, 0x00, 0x15]).2).getD 1 0
        = (11 &&& (sampleConstants.NUM_CUSTOM_CHARACTERS - 1)) + 1 :=
  have h := createChar_slot_byte sampleConstants (by decide) (by decide)
    (FutabaVFD162S sampleConstants 2 3 255).1 11 [0x10, 0x08, 0x04, 0x02, 0x01, 0x1F, 0x00, 0x15]
  ⟨h.2.1, h.2.2.2.1⟩

theorem bits_recompose (q : Nat) (hq : q < 32) :
    (q.testBit 4).toNat * 16 + (q.testBit 3).toNat * 8 + (q.testBit 2).toNat * 4
      + (q.testBit 1).toNat * 2 + (q.testBit 0).toNat * 1 = q := by
  interval_cases q <;> decide

theorem maskRows_length (pixels : List Nat) : (maskRows pixels).length = pixels.length := by
  simp [maskRows]

theorem maskRows_getD_lt (pixels : List Nat) (k : Nat) : (maskRows pixels).getD k 0 < 32 := by
  unfold maskRows
  by_cases hk : k < pixels.length
  · have h : (List.map (fun p => p &&& 0b11111) pixels).getD k 0 = pixels[k] &&& 0b11111 := by
      simp [List.getD, hk]
    rw [h]
    exact Nat.lt_of_le_of_lt Nat.and_le_right (by norm_num)
  · have hnone : pixels[k]? = none := List.getElem?_eq_none (by omega)
    have h : (List.map (fun p => p &&& 0b11111) pixels).getD k 0 = 0 := by
      simp [List.getD, hnone]
    rw [h]
    norm_num

/-- Transposing the five column bytes of an eight row glyph back gives the
rows, provided each row is below 32. -/
theorem untranspose_columns (K : Constants) (hH : K.CHARACTER_PIXEL_HEIGHT = 8)
    (rows : List Nat) (hlen : rows.length = 8) (hrows : ∀ k, rows.getD k 0 < 32) :
    untranspose
      [ createCharInner K rows 16 0 128, createCharInner K rows 8 0 128,
        createCharInner K rows 4 0 128, createCharInner K rows 2 0 128,
        createCharInner K rows 1 0 128 ] = rows := by
  apply List.ext_getElem
  · simp [untranspose, hlen]
  · intro n h1 h2
    have hn : n < 8 := by simpa [untranspose] using h1
    have hget : rows[n] = rows.getD n 0 := by
      simp [List.getD, h2]
    simp only [untranspose, List.getElem_map, List.getElem_range]
    show ((createCharInner K rows 16 0 128).testBit n).toNat * 16
        + ((createCharInner K rows 8 0 128).testBit n).toNat * 8
        + ((createCharInner K rows 4 0 128).testBit n).toNat * 4
        + ((createCharInner K rows 2 0 128).testBit n).toNat * 2
        + ((createCharInner K rows 1 0 128).testBit n).toNat * 1 = rows[n]
    rw [createCharInner_eight K hH rows 4 16 (by norm_num) n hn,
      createCharInner_eight K hH rows 3 8 (by norm_num) n hn,
      createCharInner_eight K hH rows 2 4 (by norm_num) n hn,
      createCharInner_eight K hH rows 1 2 (by norm_num) n hn,
      createCharInner_eight K hH rows 0 1 (by norm_num) n hn, hget]
    exact bits_recompose _ (hrows n)

/-- C9: with eight pixel rows, for every 8-byte input masked to its low five
bits, transposing the five column bytes that `createChar` transmits back to
row-major recovers the eight masked rows; hence two masked inputs with the
same five column bytes are equal. -/
theorem createChar_transpose_roundtrip (K : Constants)
    (hH : K.CHARACTER_PIXEL_HEIGHT = 8) (self : Handle) (characterIndex : Nat)
    (pixels : List Nat) (hlen : pixels.length = 8) :
    untranspose ((bytesSent (createChar K self characterIndex (maskRows pixels)).2).drop 2)
        = maskRows pixels
    ∧ ∀ other : List Nat, other.length = 8 →
        (bytesSent (createChar K self characterIndex (maskRows pixels)).2).drop 2
          = (bytesSent (createChar K self characterIndex (maskRows other)).2).drop 2 →
        maskRows pixels = maskRows other := by
  have hround : ∀ p : List Nat, p.length = 8 →
      untranspose ((bytesSent (createChar K self characterIndex (maskRows p)).2).drop 2)
        = maskRows p := by
    intro p hp
    rw [createChar_bytesSent]
    exact untranspose_columns K hH (maskRows p) (by rw [maskRows_length, hp])
      (maskRows_getD_lt p)
  refine ⟨hround pixels hlen, ?_⟩
  intro other hother heq
  rw [← hround pixels hlen, ← hround other hother, heq]

/-- Witness for C9: a glyph whose rows also carry bits above the cell width. -/
theorem createChar_transpose_roundtrip_witness :
    untranspose ((bytesSent (createChar sampleConstants
        (FutabaVFD162S sampleConstants 2 3 255).1 3
        (maskRows [0xF0, 0x08, 0x24, 0x02, 0x01, 0xFF, 0x00, 0x15])).2).drop 2)
      = maskRows [0xF0, 0x08, 0x24, 0x02, 0x01, 0xFF, 0x00, 0x15] :=
  (createChar_transpose_roundtrip sampleConstants rfl
    (FutabaVFD162S sampleConstants 2 3 255).1 3
    [0xF0, 0x08, 0x24, 0x02, 0x01, 0xFF, 0x00, 0x15] rfl).1

/-! ## Geometry -/

/-- C10 (as amended): after construction, and after `begin(numColumns,
numRows)` for a byte `numColumns` and `0 ≤ numRows ≤ 255`, the stored cell
count is the stored column count times the stored row count. -/
theorem begin_cell_count (K : Constants) (self : Handle) (numColumns : Nat) (numRows : Int)
    (hc : numColumns < 256) (hr0 : 0 ≤ numRows) (hr : numRows < 256) :
    (∀ clockPin dataPin resetPin : Nat,
        (FutabaVFD162S K clockPin dataPin resetPin).1._numDisplayCharacters =
          (FutabaVFD162S K clockPin dataPin resetPin).1._numDisplayColumns
            * (FutabaVFD162S K clockPin dataPin resetPin).1._numDisplayRows)
    ∧ (begin K self numColumns numRows).1._numDisplayCharacters =
        (begin K self numColumns numRows).1._numDisplayColumns
          * (begin K self numColumns numRows).1._numDisplayRows := by
  refine ⟨fun _ _ _ => rfl, ?_⟩
  have hfield : (begin K self numColumns numRows).1._numDisplayColumns = numColumns
      ∧ (begin K self numColumns numRows).1._numDisplayRows = (numRows % 256).toNat
      ∧ (begin K self numColumns numRows).1._numDisplayCharacters
          = (((numColumns : Int) * numRows) % 65536).toNat := by
    unfold begin clear
    by_cases h : self._resetPin = K.DO_NOT_USE_PIN <;> simp [h]
  rw [hfield.1, hfield.2.1, hfield.2.2]
  obtain ⟨n, rfl⟩ := Int.eq_ofNat_of_zero_le hr0
  have hn : n < 256 := by omega
  have hprod : numColumns * n ≤ 255 * 255 := Nat.mul_le_mul (by omega) (by omega)
  have hcast : (numColumns : Int) * (n : Int) = ((numColumns * n : Nat) : Int) := by
    push_cast; rfl
  have hrow : ((n : Int) % 256).toNat = n := by omega
  rw [hcast, hrow]
  generalize numColumns * n = P at hprod ⊢
  omega

/-- Witness for C10: `begin(20, 2)`. -/
theorem begin_cell_count_witness :
    (begin sampleConstants (FutabaVFD162S sampleConstants 2 3 255).1 20 2).1._numDisplayCharacters =
      (begin sampleConstants (FutabaVFD162S sampleConstants 2 3 255).1 20 2).1._numDisplayColumns
        * (begin sampleConstants (FutabaVFD162S sampleConstants 2 3 255).1 20 2).1._numDisplayRows :=
  (begin_cell_count sampleConstants (FutabaVFD162S sampleConstants 2 3 255).1 20 2
    (by decide) (by decide) (by decide)).2

/-- C10 fails as stated: `begin(1, 256)` is a call `begin` accepts; it stores
1 column, 0 rows (256 reduced to the 8-bit field) and the cell count 256. -/
theorem begin_cell_count_counterexample :
    (begin sampleConstants (FutabaVFD162S sampleConstants 2 3 255).1 1 256).1._numDisplayColumns = 1
    ∧ (begin sampleConstants (FutabaVFD162S sampleConstants 2 3 255).1 1 256).1._numDisplayRows = 0
    ∧ (begin sampleConstants (FutabaVFD162S sampleConstants 2 3 255).1 1 256).1._numDisplayCharacters
        = 256
    ∧ (begin sampleConstants (FutabaVFD162S sampleConstants 2 3 255).1 1 256).1._numDisplayCharacters
        ≠ (begin sampleConstants (FutabaVFD162S sampleConstants 2 3 255).1 1 256).1._numDisplayColumns
          * (begin sampleConstants (FutabaVFD162S sampleConstants 2 3 255).1 1 256).1._numDisplayRows := by
  decide

/-! ## Fixed commands and pass-through arguments -/

/-- C11: each fixed-argument mode command executes exactly two byte
transmissions, its opcode and then its constant: cursor mode auto-increment
0x01, auto-decrement 0x02, non-increment 0x03, all three with the
set-cursor-mode opcode; flash mode enabled 0x02, disabled 0x01; flash rate
50 Hz 0x01, 1 Hz 0x30, 1/10 Hz 0xFF; font Western 0x01, Katakana 0x02;
buffered mode 0x02, non-buffered 0x01. -/
theorem mode_commands_bytes (K : Constants) (self : Handle) :
    (setCursorModeAutoInc K self).2 =
      [Step.writeCharacterDirect K.SET_CURSOR_MODE_CHARACTER, Step.writeCharacterDirect 0x01]
    ∧ (setCursorModeAutoDec K self).2 =
      [Step.writeCharacterDirect K.SET_CURSOR_MODE_CHARACTER, Step.writeCharacterDirect 0x02]
    ∧ (setCursorModeNonInc K self).2 =
      [Step.writeCharacterDirect K.SET_CURSOR_MODE_CHARACTER, Step.writeCharacterDirect 0x03]
    ∧ (setFlashModeEnabled K self).2 =
      [Step.writeCharacterDirect K.FLASH_MODE_CHARACTER, Step.writeCharacterDirect 0x02]
    ∧ (setFlashModeDisabled K self).2 =
      [Step.writeCharacterDirect K.FLASH_MODE_CHARACTER, Step.writeCharacterDirect 0x01]
    ∧ (setFlashRate50 K self).2 =
      [Step.writeCharacterDirect K.SET_FLASH_RATE_CHARACTER, Step.writeCharacterDirect 0x01]
    ∧ (setFlashRate1 K self).2 =
      [Step.writeCharacterDirect K.SET_FLASH_RATE_CHARACTER, Step.writeCharacterDirect 0x30]
    ∧ (setFlashRateTenth K self).2 =
      [Step.writeCharacterDirect K.SET_FLASH_RATE_CHARACTER, Step.writeCharacterDirect 0xFF]
    ∧ (setFontWestern K self).2 =
      [Step.writeCharacterDirect K.SELECT_FONT_CHARACTER, Step.writeCharacterDirect 0x01]
    ∧ (setFontKatakana K self).2 =
      [Step.writeCharacterDirect K.SELECT_FONT_CHARACTER, Step.writeCharacterDirect 0x02]
    ∧ (setBufferedMode K self).2 =
      [Step.writeCharacterDirect K.SET_BUFFERED_MODE_CHARACTER, Step.writeCharacterDirect 0x02]
    ∧ (setNonBufferedMode K self).2 =
      [Step.writeCharacterDirect K.SET_BUFFERED_MODE_CHARACTER, Step.writeCharacterDirect 0x01] :=
  ⟨rfl, rfl, rfl, rfl, rfl, rfl, rfl, rfl, rfl, rfl, rfl, rfl⟩

/-- C12: argument bytes pass through unchecked.  For every `level`,
`setBrightness(level)` executes exactly the byte transmissions brightness
opcode, `level`; for all `start` and `stop`, in either order,
`setFlashPositions(start, stop)` executes exactly flash-position opcode,
`start`, `stop`; `clear` and `printMessageBuffer` each execute exactly one
byte transmission, their opcode. -/
theorem pass_through_bytes (K : Constants) (self : Handle) :
    (∀ level : Nat,
        (setBrightness K self level).2 =
          [ Step.writeCharacterDirect K.SET_DISPLAY_BRIGHTNESS_CHARACTER,
            Step.writeCharacterDirect level ])
    ∧ (∀ start stop : Nat,
        (setFlashPositions K self start stop).2 =
          [ Step.writeCharacterDirect K.SET_FLASH_POSITION_CHARACTER,
            Step.writeCharacterDirect start,
            Step.writeCharacterDirect stop ])
    ∧ (clear K self).2 = [Step.writeCharacterDirect K.CLEAR_ENTIRE_DISPLAY_CHARACTER]
    ∧ (printMessageBuffer K self).2 =
        [Step.writeCharacterDirect K.PRINT_MESSAGE_BUFFER_CHARACTER] :=
  ⟨fun _ => rfl, fun _ _ => rfl, rfl, rfl⟩

/-! ## Timing of one byte -/

/-- C13: with `DATA_SETUP_TIME` not exceeding `HALF_PERIOD_TIME`, the delays
`writeCharacterDirect` requests are, for each of the eight bits,
`DATA_SETUP_TIME`, `HALF_PERIOD_TIME` and the non-negative
`HALF_PERIOD_TIME - DATA_SETUP_TIME`, which sum to `2 * HALF_PERIOD_TIME`,
and then `PROCESS_TIME`; the total for one byte is
`16 * HALF_PERIOD_TIME + PROCESS_TIME`, and the delays are the same for every
byte value. -/
theorem writeCharacterDirect_delays (K : Constants) (self : Handle) (v : Nat)
    (hle : K.DATA_SETUP_TIME ≤ K.HALF_PERIOD_TIME) :
    delays (writeCharacterDirect K self v) =
        (List.replicate 8
          [K.DATA_SETUP_TIME, K.HALF_PERIOD_TIME,
            K.HALF_PERIOD_TIME - K.DATA_SETUP_TIME]).flatten
        ++ [K.PROCESS_TIME]
    ∧ 0 ≤ K.HALF_PERIOD_TIME - K.DATA_SETUP_TIME
    ∧ K.DATA_SETUP_TIME + K.HALF_PERIOD_TIME + (K.HALF_PERIOD_TIME - K.DATA_SETUP_TIME)
        = 2 * K.HALF_PERIOD_TIME
    ∧ (delays (writeCharacterDirect K self v)).sum = 16 * K.HALF_PERIOD_TIME + K.PROCESS_TIME
    ∧ ∀ w : Nat, delays (writeCharacterDirect K self w) = delays (writeCharacterDirect K self v) := by
  have hd : ∀ u : Nat, delays (writeCharacterDirect K self u) =
      (List.replicate 8
          [K.DATA_SETUP_TIME, K.HALF_PERIOD_TIME,
            K.HALF_PERIOD_TIME - K.DATA_SETUP_TIME]).flatten
        ++ [K.PROCESS_TIME] := by
    intro u
    rw [writeCharacterDirect_eq]
    simp [bitCell, delays, List.replicate]
  refine ⟨hd v, by omega, by ring, ?_, fun w => by rw [hd w, hd v]⟩
  rw [hd v]
  simp [List.replicate]
  ring

/-- Witness for C13: data setup 1, half period 5, processing time 50. -/
theorem writeCharacterDirect_delays_witness :
    (delays (writeCharacterDirect sampleConstants
        (FutabaVFD162S sampleConstants 2 3 255).1 0xA5)).sum
      = 16 * sampleConstants.HALF_PERIOD_TIME + sampleConstants.PROCESS_TIME :=
  (writeCharacterDirect_delays sampleConstants (FutabaVFD162S sampleConstants 2 3 255).1 0xA5
    (by decide)).2.2.2.1

/-! ## Home -/

/-- C15: `home()` is `setCursor(0, 0)`, and on every handle, whatever its
geometry (a cell count of zero included), it executes exactly the byte
transmissions set-cursor opcode, 1. -/
theorem home_bytes (K : Constants) (self : Handle) :
    home K self = setCursor K self 0 0
    ∧ (setCursor K self 0 0).2 =
      [Step.writeCharacterDirect K.SET_CURSOR_POSITION_CHARACTER, Step.writeCharacterDirect 1]
    ∧ (home K self).2 =
      [Step.writeCharacterDirect K.SET_CURSOR_POSITION_CHARACTER, Step.writeCharacterDirect 1]
    ∧ bytesSent (home K self).2 = [K.SET_CURSOR_POSITION_CHARACTER, 1] := by
  have h : (setCursor K self 0 0).2 =
      [Step.writeCharacterDirect K.SET_CURSOR_POSITION_CHARACTER,
        Step.writeCharacterDirect 1] := by
    rw [setCursor_steps]
    simp
  refine ⟨rfl, h, h, ?_⟩
  show bytesSent (setCursor K self 0 0).2 = _
  rw [h]
  rfl

/-! ## Pixel bits above the cell width -/

/-- The inner loop reads the rows only through the test `pixels[i] & testBit`:
two pixel arrays with the same test results in every row the loop visits give
the same byte. -/
theorem createCharInner_congr (K : Constants) (p q : List Nat) (testBit : Nat)
    (hsame : ∀ i : Nat, i < K.CHARACTER_PIXEL_HEIGHT →
      (p.getD i 0 &&& testBit != 0) = (q.getD i 0 &&& testBit != 0)) :
    ∀ (m i cur : Nat), K.CHARACTER_PIXEL_HEIGHT - i = m →
      createCharInner K p testBit i cur = createCharInner K q testBit i cur := by
  intro m
  induction m with
  | zero =>
    intro i cur hm
    have hi : ¬ i < K.CHARACTER_PIXEL_HEIGHT := by omega
    rw [createCharInner, createCharInner.eq_1 K q]
    simp only [hi, ↓reduceDIte]
  | succ m ih =>
    intro i cur hm
    have hi : i < K.CHARACTER_PIXEL_HEIGHT := by omega
    rw [createCharInner, createCharInner.eq_1 K q]
    simp only [hi, ↓reduceDIte, hsame i hi]
    exact ih (i + 1) _ (by omega)

/-- C14: with at most eight pixel rows read, the bytes `createChar` transmits
depend only on bits 0..4 of each row byte: for every slot index and every two
8-byte pixel arrays that agree on bits 0..4 of every row, `createChar`
executes the same byte transmissions. -/
theorem createChar_ignores_high_bits (K : Constants)
    (hH : K.CHARACTER_PIXEL_HEIGHT ≤ 8) (self : Handle) (characterIndex : Nat)
    (p q : List Nat) (hp : p.length = 8) (hq : q.length = 8)
    (hagree : ∀ k : Nat, k < 8 → ∀ b : Nat, b < 5 →
      (p.getD k 0).testBit b = (q.getD k 0).testBit b) :
    (createChar K self characterIndex p).2 = (createChar K self characterIndex q).2
    ∧ bytesSent (createChar K self characterIndex p).2
        = bytesSent (createChar K self characterIndex q).2 := by
  have _ := hp
  have _ := hq
  have hinner : ∀ b : Nat, b < 5 → ∀ tb : Nat, tb = 2 ^ b →
      createCharInner K p tb 0 128 = createCharInner K q tb 0 128 := by
    intro b hb tb htb
    subst htb
    apply createCharInner_congr K p q (2 ^ b) _ _ 0 128 rfl
    intro i hi
    rw [land_two_pow_bne_zero, land_two_pow_bne_zero]
    exact hagree i (by omega) b hb
  have hcols : createCharColumns K p 0b10000 = createCharColumns K q 0b10000 := by
    rw [createCharColumns_16, createCharColumns_16,
      hinner 4 (by norm_num) 16 (by norm_num), hinner 3 (by norm_num) 8 (by norm_num),
      hinner 2 (by norm_num) 4 (by norm_num), hinner 1 (by norm_num) 2 (by norm_num),
      hinner 0 (by norm_num) 1 (by norm_num)]
  have hsteps : (createChar K self characterIndex p).2
      = (createChar K self characterIndex q).2 := by
    simp only [createChar, hcols]
  exact ⟨hsteps, by rw [hsteps]⟩

/-- Witness for C14: a glyph and the same glyph with bits 5..7 set in some
rows. -/
theorem createChar_ignores_high_bits_witness :
    (createChar sampleConstants (FutabaVFD162S sampleConstants 2 3 255).1 3
        [0x10, 0x08, 0x04, 0x02, 0x01, 0x1F, 0x00, 0x15]).2
      = (createChar sampleConstants (FutabaVFD162S sampleConstants 2 3 255).1 3
        [0xF0, 0x28, 0x44, 0x82, 0xE1, 0xFF, 0x20, 0x35]).2 :=
  (createChar_ignores_high_bits sampleConstants (by decide)
    (FutabaVFD162S sampleConstants 2 3 255).1 3
    [0x10, 0x08, 0x04, 0x02, 0x01, 0x1F, 0x00, 0x15]
    [0xF0, 0x28, 0x44, 0x82, 0xE1, 0xFF, 0x20, 0x35] rfl rfl (by decide)).1

/-! ## Validity of the cursor address byte -/

/-- C18 (as amended): on a handle with at least one cell, for every column
and row the byte `setCursor` transmits after the opcode is never greater than
the stored cell count, and it is at least 1 whenever the cell count is at most
255 or the 8-bit address `(row * columns + column) mod 256` is not 255. -/
theorem setCursor_address_valid (K : Constants) (self : Handle) (column row : Nat)
    (hcells : 0 < self._numDisplayCharacters) :
    ∃ a : Nat,
      (setCursor K self column row).2 =
        [ Step.writeCharacterDirect K.SET_CURSOR_POSITION_CHARACTER,
          Step.writeCharacterDirect a ]
      ∧ a ≤ self._numDisplayCharacters
      ∧ ((self._numDisplayCharacters ≤ 255
            ∨ (row * self._numDisplayColumns + column) % 256 ≠ 255) → 1 ≤ a) := by
  refine ⟨_, setCursor_steps K self column row, ?_, ?_⟩
  · generalize (row * self._numDisplayColumns + column) % 256 = addr
    split <;> omega
  · generalize hA : (row * self._numDisplayColumns + column) % 256 = addr
    have haddr : addr < 256 := by
      rw [← hA]; exact Nat.mod_lt _ (by norm_num)
    intro h
    split <;> omega

/-- Witness for C18: a 20 x 2 display, column 5, row 1. -/
theorem setCursor_address_valid_witness :
    ∃ a : Nat,
      (setCursor sampleConstants
          (begin sampleConstants (FutabaVFD162S sampleConstants 2 3 255).1 20 2).1 5 1).2 =
        [ Step.writeCharacterDirect sampleConstants.SET_CURSOR_POSITION_CHARACTER,
          Step.writeCharacterDirect a ]
      ∧ a ≤ (begin sampleConstants
          (FutabaVFD162S sampleConstants 2 3 255).1 20 2).1._numDisplayCharacters
      ∧ (((begin sampleConstants
            (FutabaVFD162S sampleConstants 2 3 255).1 20 2).1._numDisplayCharacters ≤ 255
          ∨ (1 * (begin sampleConstants
              (FutabaVFD162S sampleConstants 2 3 255).1 20 2).1._numDisplayColumns + 5) % 256
            ≠ 255) → 1 ≤ a) :=
  setCursor_address_valid sampleConstants
    (begin sampleConstants (FutabaVFD162S sampleConstants 2 3 255).1 20 2).1 5 1 (by decide)

/-- C18 fails as stated: a 16 x 16 display has 256 cells, and
`setCursor(15, 15)` transmits the address byte 0 after the opcode. -/
theorem setCursor_address_valid_counterexample :
    0 < (begin sampleConstants
        (FutabaVFD162S sampleConstants 2 3 255).1 16 16).1._numDisplayCharacters
    ∧ bytesSent (setCursor sampleConstants
        (begin sampleConstants (FutabaVFD162S sampleConstants 2 3 255).1 16 16).1 15 15).2
      = [sampleConstants.SET_CURSOR_POSITION_CHARACTER, 0] := by
  decide

/-! ## Operations as commands: what they leave unchanged -/

theorem write_handle (K : Constants) (self : Handle) (character : Nat) :
    (write K self character).1 = self := by
  unfold write
  split
  · rfl
  · split <;> rfl

/-- Every operation keeps the three pin ids. -/
theorem run_pins (K : Constants) (self : Handle) (cmd : Command) :
    (run K self cmd).1._clockPin = self._clockPin
    ∧ (run K self cmd).1._dataPin = self._dataPin
    ∧ (run K self cmd).1._resetPin = self._resetPin := by
  cases cmd
  case begin c r =>
    by_cases h : self._resetPin = K.DO_NOT_USE_PIN <;> simp [run, begin, clear, h]
  case write c => simp [run, write_handle]
  all_goals exact ⟨rfl, rfl, rfl⟩

/-- Every operation other than `begin` returns the handle it was given. -/
theorem run_handle (K : Constants) (self : Handle) (cmd : Command)
    (hcmd : cmd.isBegin = false) : (run K self cmd).1 = self := by
  cases cmd
  case begin c r => simp [Command.isBegin] at hcmd
  case write c => simp [run, write_handle]
  all_goals rfl

/-- The steps of every operation are byte transmissions, delays, or writes to
a reset pin that is in use. -/
theorem run_plain (K : Constants) (self : Handle) (cmd : Command) :
    ∀ s ∈ (run K self cmd).2, Step.plain K self s = true := by
  cases cmd
  case begin c r =>
    by_cases h : self._resetPin = K.DO_NOT_USE_PIN <;>
      simp [run, begin, clear, h, Step.plain]
  case createChar i pixels =>
    intro s hs
    simp only [run, createChar, List.cons_append, List.nil_append, List.mem_cons,
      List.mem_map] at hs
    rcases hs with rfl | rfl | ⟨b, _, rfl⟩ <;> rfl
  case write c =>
    intro s hs
    simp only [run, write] at hs
    split at hs
    · simp at hs; subst hs; rfl
    · split at hs
      · simp at hs
      · simp at hs; subst hs; rfl
  all_goals
    intro s hs
    simp only [run, clear, home, setCursor, setBrightness, setCursorModeAutoInc,
      setCursorModeAutoDec, setCursorModeNonInc, setFlashPositions, setFlashModeEnabled,
      setFlashModeDisabled, setFlashRate50, setFlashRate1, setFlashRateTenth, setFontWestern,
      setFontKatakana, setNonBufferedMode, setBufferedMode, printMessageBuffer,
      List.mem_cons, List.mem_singleton, List.mem_nil_iff, or_false] at hs
    rcases hs with rfl | rfl | rfl <;> rfl

/-- The steps of every operation other than `begin` are a function of its
arguments, the stored column count and the stored cell count. -/
theorem run_steps_geometry (K : Constants) (self other : Handle) (cmd : Command)
    (hcmd : cmd.isBegin = false)
    (hcols : other._numDisplayColumns = self._numDisplayColumns)
    (hcells : other._numDisplayCharacters = self._numDisplayCharacters) :
    (run K other cmd).2 = (run K self cmd).2 := by
  cases cmd
  case begin c r => simp [Command.isBegin] at hcmd
  case home => simp only [run, home, setCursor, hcols, hcells]
  case setCursor c r => simp only [run, setCursor, hcols, hcells]
  case write c =>
    simp only [run, write]
    split
    · rfl
    · split <;> rfl
  all_goals rfl

theorem runAll_handle (K : Constants) (cmds : List Command) :
    ∀ self : Handle, (∀ c ∈ cmds, Command.isBegin c = false) →
      (runAll K self cmds).1 = self := by
  induction cmds with
  | nil => intro self _; rfl
  | cons cmd rest ih =>
    intro self h
    have hc : Command.isBegin cmd = false := h cmd (List.mem_cons_self _ _)
    have hrest : ∀ c ∈ rest, Command.isBegin c = false :=
      fun c hmem => h c (List.mem_cons_of_mem _ hmem)
    show (runAll K (run K self cmd).1 rest).1 = self
    rw [run_handle K self cmd hc]
    exact ih self hrest

theorem runAll_pins (K : Constants) (cmds : List Command) :
    ∀ self : Handle,
      (runAll K self cmds).1._clockPin = self._clockPin
      ∧ (runAll K self cmds).1._dataPin = self._dataPin
      ∧ (runAll K self cmds).1._resetPin = self._resetPin := by
  induction cmds with
  | nil => intro self; exact ⟨rfl, rfl, rfl⟩
  | cons cmd rest ih =>
    intro self
    have h1 := run_pins K self cmd
    have h2 := ih (run K self cmd).1
    show (runAll K (run K self cmd).1 rest).1._clockPin = self._clockPin
      ∧ (runAll K (run K self cmd).1 rest).1._dataPin = self._dataPin
      ∧ (runAll K (run K self cmd).1 rest).1._resetPin = self._resetPin
    exact ⟨h2.1.trans h1.1, h2.2.1.trans h1.2.1, h2.2.2.trans h1.2.2⟩

/-- C16: every operation other than `begin` (clear, home, setCursor,
createChar, write, setBrightness, the mode, flash, font and buffer commands,
printMessageBuffer, writeCharacterDirect) returns the handle unchanged: pin
ids, columns, rows and cell count.  Its steps are the same on every handle
with the same column count and cell count, and the same after any sequence of
such operations as before it. -/
theorem operations_keep_state (K : Constants) (self : Handle) (cmd : Command)
    (hcmd : cmd.isBegin = false) :
    (run K self cmd).1 = self
    ∧ (∀ other : Handle,
        other._numDisplayColumns = self._numDisplayColumns →
        other._numDisplayCharacters = self._numDisplayCharacters →
        (run K other cmd).2 = (run K self cmd).2)
    ∧ (∀ earlier : List Command, (∀ c ∈ earlier, Command.isBegin c = false) →
        (runAll K self earlier).1 = self
        ∧ (run K (runAll K self earlier).1 cmd).2 = (run K self cmd).2) := by
  refine ⟨run_handle K self cmd hcmd, ?_, ?_⟩
  · intro other hcols hcells
    exact run_steps_geometry K self other cmd hcmd hcols hcells
  · intro earlier hearlier
    have h := runAll_handle K earlier self hearlier
    exact ⟨h, by rw [h]⟩

/-- Witness for C16: `setCursor(5, 1)` on a 20 x 2 display, also after a
`createChar`, a `write` and a `home`. -/
theorem operations_keep_state_witness :
    (run sampleConstants
        (begin sampleConstants (FutabaVFD162S sampleConstants 2 3 255).1 20 2).1
        (Command.setCursor 5 1)).1
      = (begin sampleConstants (FutabaVFD162S sampleConstants 2 3 255).1 20 2).1
    ∧ (run sampleConstants
        (runAll sampleConstants
          (begin sampleConstants (FutabaVFD162S sampleConstants 2 3 255).1 20 2).1
          [ Command.createChar 1 [0x10, 0x08, 0x04, 0x02, 0x01, 0x1F, 0x00, 0x15],
            Command.write 65, Command.home ]).1
        (Command.setCursor 5 1)).2
      = (run sampleConstants
          (begin sampleConstants (FutabaVFD162S sampleConstants 2 3 255).1 20 2).1
          (Command.setCursor 5 1)).2 :=
  have h := operations_keep_state sampleConstants
    (begin sampleConstants (FutabaVFD162S sampleConstants 2 3 255).1 20 2).1
    (Command.setCursor 5 1) rfl
  ⟨h.1, (h.2.2
    [ Command.createChar 1 [0x10, 0x08, 0x04, 0x02, 0x01, 0x1F, 0x00, 0x15],
      Command.write 65, Command.home ] (by decide)).2⟩

/-! ## Pins touched -/

theorem writeCharacterDirect_pins (K : Constants) (self : Handle) (character : Nat) :
    ∀ e ∈ writeCharacterDirect K self character, ∀ p : Nat,
      Event.pin? e = some p → p = self._clockPin ∨ p = self._dataPin := by
  intro e he p hp
  rw [writeCharacterDirect_eq] at he
  simp only [bitCell, List.cons_append, List.nil_append, List.mem_cons, List.mem_singleton,
    List.mem_nil_iff, or_false] at he
  rcases he with rfl | rfl | rfl | rfl | rfl | rfl | rfl | rfl | rfl | rfl | rfl | rfl | rfl
    | rfl | rfl | rfl | rfl | rfl | rfl | rfl | rfl | rfl | rfl | rfl | rfl | rfl | rfl | rfl
    | rfl | rfl | rfl | rfl | rfl | rfl | rfl | rfl | rfl | rfl | rfl | rfl | rfl | rfl | rfl
    | rfl | rfl | rfl | rfl | rfl | rfl <;>
    simp [Event.pin?] at hp <;> simp [hp]

/-- On a handle without reset pin, the pin events of plain steps touch the
clock pin or the data pin only. -/
theorem wire_pins (K : Constants) (self : Handle) (hreset : self._resetPin = K.DO_NOT_USE_PIN)
    (steps : List Step) (hplain : ∀ s ∈ steps, Step.plain K self s = true) :
    ∀ e ∈ wire K self steps, ∀ p : Nat,
      Event.pin? e = some p → p = self._clockPin ∨ p = self._dataPin := by
  intro e he p hp
  simp only [wire, List.mem_flatMap] at he
  obtain ⟨s, hs, hes⟩ := he
  have hpl := hplain s hs
  cases s with
  | writeCharacterDirect b => exact writeCharacterDirect_pins K self b e hes p hp
  | gpio ev =>
    simp only [wireStep, List.mem_singleton] at hes
    subst hes
    cases e with
    | timingDelay t => simp [Event.pin?] at hp
    | pinMode q => simp [Step.plain] at hpl
    | digitalWrite q l => simp [Step.plain, hreset] at hpl

theorem runAll_pins_touched (K : Constants) (cmds : List Command) :
    ∀ self : Handle, self._resetPin = K.DO_NOT_USE_PIN →
      ∀ e ∈ (runAll K self cmds).2, ∀ p : Nat,
        Event.pin? e = some p → p = self._clockPin ∨ p = self._dataPin := by
  induction cmds with
  | nil => intro self _ e he; simp [runAll] at he
  | cons cmd rest ih =>
    intro self hreset e he p hp
    have hpins := run_pins K self cmd
    simp only [runAll, List.mem_append] at he
    rcases he with he | he
    · have hplain : ∀ s ∈ (run K self cmd).2, Step.plain K (run K self cmd).1 s = true := by
        intro s hs
        have h := run_plain K self cmd s hs
        cases s with
        | writeCharacterDirect b => rfl
        | gpio ev =>
          cases ev <;> simp_all [Step.plain]
      have h := wire_pins K (run K self cmd).1 (by rw [hpins.2.2]; exact hreset)
        (run K self cmd).2 hplain e he p hp
      rw [hpins.1, hpins.2.1] at h
      exact h
    · have h := ih (run K self cmd).1 (by rw [hpins.2.2]; exact hreset) e he p hp
      rw [hpins.1, hpins.2.1] at h
      exact h

/-- C17: for a handle constructed with the reset pin unused, every pin event
of the constructor and of any sequence of operations after it (begin
included) touches the clock pin or the data pin; so, the clock and data pin
ids being different from `DO_NOT_USE_PIN`, no event writes a level to or
configures the reset pin id. -/
theorem reset_pin_untouched (K : Constants) (clockPin dataPin : Nat) (cmds : List Command) :
    (∀ e ∈ wire K (FutabaVFD162S K clockPin dataPin K.DO_NOT_USE_PIN).1
              (FutabaVFD162S K clockPin dataPin K.DO_NOT_USE_PIN).2
            ++ (runAll K (FutabaVFD162S K clockPin dataPin K.DO_NOT_USE_PIN).1 cmds).2,
        ∀ p : Nat, Event.pin? e = some p → p = clockPin ∨ p = dataPin)
    ∧ (clockPin ≠ K.DO_NOT_USE_PIN → dataPin ≠ K.DO_NOT_USE_PIN →
        ∀ e ∈ wire K (FutabaVFD162S K clockPin dataPin K.DO_NOT_USE_PIN).1
              (FutabaVFD162S K clockPin dataPin K.DO_NOT_USE_PIN).2
            ++ (runAll K (FutabaVFD162S K clockPin dataPin K.DO_NOT_USE_PIN).1 cmds).2,
          Event.pin? e ≠ some K.DO_NOT_USE_PIN) := by
  have hmain : ∀ e ∈ wire K (FutabaVFD162S K clockPin dataPin K.DO_NOT_USE_PIN).1
              (FutabaVFD162S K clockPin dataPin K.DO_NOT_USE_PIN).2
            ++ (runAll K (FutabaVFD162S K clockPin dataPin K.DO_NOT_USE_PIN).1 cmds).2,
        ∀ p : Nat, Event.pin? e = some p → p = clockPin ∨ p = dataPin := by
    intro e he p hp
    rw [List.mem_append] at he
    rcases he with he | he
    · simp only [FutabaVFD162S, bne_self_eq_false, Bool.false_eq_true, ↓reduceIte,
        List.append_nil, wire, List.flatMap_cons, List.flatMap_nil, wireStep,
        List.cons_append, List.nil_append, List.mem_cons, List.mem_nil_iff, or_false] at he
      rcases he with rfl | rfl | rfl | rfl <;> simp [Event.pin?] at hp <;> simp [hp]
    · exact runAll_pins_touched K cmds (FutabaVFD162S K clockPin dataPin K.DO_NOT_USE_PIN).1
        rfl e he p hp
  refine ⟨hmain, ?_⟩
  intro hclk hdat e he hp
  rcases hmain e he _ hp with h | h
  · exact hclk h.symm
  · exact hdat h.symm

/-! ## The clock line -/

theorem levelsWritten_append (pin : Nat) (xs ys : List Event) :
    levelsWritten pin (xs ++ ys) = levelsWritten pin xs ++ levelsWritten pin ys := by
  induction xs with
  | nil => rfl
  | cons e rest ih =>
    cases e with
    | digitalWrite p l =>
      by_cases h : p = pin <;> simp [levelsWritten, h, ih]
    | pinMode p => simpa [levelsWritten] using ih
    | timingDelay t => simpa [levelsWritten] using ih

theorem pulses_add (a b : Nat) : pulses (a + b) = pulses a ++ pulses b := by
  induction a with
  | zero => simp [pulses]
  | succ n ih =>
    have h : n + 1 + b = (n + b) + 1 := by omega
    rw [h]
    simp [pulses, ih]

theorem pulses_count_low (n : Nat) : (pulses n).count Level.LOW = n := by
  induction n with
  | zero => rfl
  | succ n ih => simp [pulses, ih]

theorem pulses_getLast (n : Nat) :
    ∀ l : List Level, l.getLast? = some Level.HIGH →
      (l ++ pulses n).getLast? = some Level.HIGH := by
  induction n with
  | zero => intro l h; simpa [pulses] using h
  | succ n ih =>
    intro l _
    have h2 : l ++ pulses (n + 1) = (l ++ [Level.LOW, Level.HIGH]) ++ pulses n := by
      simp [pulses]
    rw [h2]
    apply ih
    simp

/-- With the clock on a pin of its own, one byte is eight clock pulses. -/
theorem writeCharacterDirect_levels (K : Constants) (self : Handle)
    (hcd : self._clockPin ≠ self._dataPin) (character : Nat) :
    levelsWritten self._clockPin (writeCharacterDirect K self character) = pulses 8 := by
  have hdc : ¬ self._dataPin = self._clockPin := fun h => hcd h.symm
  rw [writeCharacterDirect_eq]
  simp [bitCell, levelsWritten, hdc, pulses]

/-- The clock levels of plain steps: eight pulses for each byte. -/
theorem wire_levels (K : Constants) (self : Handle)
    (hcd : self._clockPin ≠ self._dataPin) (hrc : self._resetPin ≠ self._clockPin)
    (steps : List Step) (hplain : ∀ s ∈ steps, Step.plain K self s = true) :
    levelsWritten self._clockPin (wire K self steps)
      = pulses (8 * (bytesSent steps).length) := by
  induction steps with
  | nil => rfl
  | cons s rest ih =>
    have hrest := ih (fun t ht => hplain t (List.mem_cons_of_mem _ ht))
    have hs := hplain s (List.mem_cons_self _ _)
    have hw : wire K self (s :: rest) = wireStep K self s ++ wire K self rest := by
      simp [wire]
    rw [hw, levelsWritten_append, hrest]
    cases s with
    | writeCharacterDirect b =>
      have hlen : 8 * (bytesSent (Step.writeCharacterDirect b :: rest)).length
          = 8 + 8 * (bytesSent rest).length := by
        simp [bytesSent]; omega
      rw [hlen, pulses_add]
      simp only [wireStep]
      rw [writeCharacterDirect_levels K self hcd]
    | gpio ev =>
      cases ev with
      | timingDelay t => simp [wireStep, levelsWritten, bytesSent]
      | pinMode q => simp [Step.plain] at hs
      | digitalWrite q l =>
        simp only [Step.plain, Bool.and_eq_true, decide_eq_true_eq] at hs
        have hq : ¬ q = self._clockPin := by rw [hs.1]; exact hrc
        simp [wireStep, levelsWritten, bytesSent, hq]

/-- The clock levels of one operation on a handle with separate pins. -/
theorem runWire_levels (K : Constants) (self : Handle)
    (hcd : self._clockPin ≠ self._dataPin) (hrc : self._resetPin ≠ self._clockPin)
    (cmd : Command) :
    levelsWritten self._clockPin (runWire K self cmd)
      = pulses (8 * (bytesSent (run K self cmd).2).length) := by
  have hpins := run_pins K self cmd
  have hplain : ∀ s ∈ (run K self cmd).2, Step.plain K (run K self cmd).1 s = true := by
    intro s hs
    have h := run_plain K self cmd s hs
    cases s with
    | writeCharacterDirect b => rfl
    | gpio ev =>
      cases ev <;> simp_all [Step.plain]
  have h := wire_levels K (run K self cmd).1 (by rw [hpins.1, hpins.2.1]; exact hcd)
    (by rw [hpins.1, hpins.2.2]; exact hrc) (run K self cmd).2 hplain
  rw [hpins.1] at h
  exact h

theorem runAll_levels (K : Constants) (cmds : List Command) :
    ∀ self : Handle, self._clockPin ≠ self._dataPin → self._resetPin ≠ self._clockPin →
      ∃ n : Nat, levelsWritten self._clockPin (runAll K self cmds).2 = pulses n := by
  induction cmds with
  | nil => intro self _ _; exact ⟨0, rfl⟩
  | cons cmd rest ih =>
    intro self hcd hrc
    have hpins := run_pins K self cmd
    obtain ⟨n, hn⟩ := ih (run K self cmd).1 (by rw [hpins.1, hpins.2.1]; exact hcd)
      (by rw [hpins.1, hpins.2.2]; exact hrc)
    rw [hpins.1] at hn
    refine ⟨8 * (bytesSent (run K self cmd).2).length + n, ?_⟩
    simp only [runAll]
    rw [levelsWritten_append, runWire_levels K self hcd hrc, hn, pulses_add]

/-- C19: with the clock on a pin of its own (different from the data pin and
from the reset pin), after construction and after every sequence of
operations the last level written to the clock pin is HIGH, and the pin
trace of every operation holds exactly eight LOW writes to the clock pin for
each byte the operation transmits. -/
theorem clock_idle_high_whole_bytes (K : Constants) (clockPin dataPin resetPin : Nat)
    (hcd : clockPin ≠ dataPin) (hrc : resetPin ≠ clockPin) (cmds : List Command) :
    (levelsWritten clockPin
        (wire K (FutabaVFD162S K clockPin dataPin resetPin).1
            (FutabaVFD162S K clockPin dataPin resetPin).2
          ++ (runAll K (FutabaVFD162S K clockPin dataPin resetPin).1 cmds).2)).getLast?
      = some Level.HIGH
    ∧ ∀ cmd : Command,
        (levelsWritten clockPin
          (runWire K (runAll K (FutabaVFD162S K clockPin dataPin resetPin).1 cmds).1 cmd)).count
            Level.LOW
          = 8 * (bytesSent
              (run K (runAll K (FutabaVFD162S K clockPin dataPin resetPin).1 cmds).1 cmd).2).length := by
  have hdc : ¬ dataPin = clockPin := fun h => hcd h.symm
  have hctor : levelsWritten clockPin
      (wire K (FutabaVFD162S K clockPin dataPin resetPin).1
        (FutabaVFD162S K clockPin dataPin resetPin).2) = [Level.HIGH] := by
    by_cases h : resetPin = K.DO_NOT_USE_PIN <;>
      simp [FutabaVFD162S, wire, wireStep, levelsWritten, h, hdc, hrc]
  have hpins := runAll_pins K cmds (FutabaVFD162S K clockPin dataPin resetPin).1
  constructor
  · obtain ⟨n, hn⟩ := runAll_levels K cmds (FutabaVFD162S K clockPin dataPin resetPin).1 hcd hrc
    have hn2 : levelsWritten clockPin
        (runAll K (FutabaVFD162S K clockPin dataPin resetPin).1 cmds).2 = pulses n := hn
    rw [levelsWritten_append, hctor, hn2]
    exact pulses_getLast n [Level.HIGH] rfl
  · intro cmd
    have h := runWire_levels K (runAll K (FutabaVFD162S K clockPin dataPin resetPin).1 cmds).1
      (by rw [hpins.1, hpins.2.1]; exact hcd) (by rw [hpins.1, hpins.2.2]; exact hrc) cmd
    rw [hpins.1] at h
    have h2 : levelsWritten clockPin
        (runWire K (runAll K (FutabaVFD162S K clockPin dataPin resetPin).1 cmds).1 cmd)
        = pulses (8 * (bytesSent
            (run K (runAll K (FutabaVFD162S K clockPin dataPin resetPin).1 cmds).1 cmd).2).length) := h
    rw [h2, pulses_count_low]

/-- Witness for C19: clock pin 2, data pin 3, reset pin 4; `begin(20, 2)`, a
dropped control character, then `setCursor(5, 1)`. -/
theorem clock_idle_high_whole_bytes_witness :
    (levelsWritten 2
        (wire sampleConstants (FutabaVFD162S sampleConstants 2 3 4).1
            (FutabaVFD162S sampleConstants 2 3 4).2
          ++ (runAll sampleConstants (FutabaVFD162S sampleConstants 2 3 4).1
              [Command.begin 20 2, Command.write 10, Command.setCursor 5 1]).2)).getLast?
      = some Level.HIGH :=
  (clock_idle_high_whole_bytes sampleConstants 2 3 4 (by decide) (by decide)
    [Command.begin 20 2, Command.write 10, Command.setCursor 5 1]).1

end FutabaVFD162S
